import Mathlib

/-!
Verification of the sparse voxel face-exposure engine of the Decode-PAINT
repository: a shallow embedding of `locsutil/voxelutil.py` (face scanning,
origin normalization, dedup), `locsutil/locsutil.py` (`voxelize`),
`analyze.py` (`analyze_clusters` aggregation formulas) and `voxelscan.py`
(`voxel_scan` multi-scale sweep and `_analyze_vox` batch assembly), together
with theorems settling the specified properties.

Modelling conventions:
- pandas DataFrames of localizations and voxels become Lean lists of
  structures; column assignments become structure fields.
- Python floats become rationals.  Since the only float operation feeding the
  integer voxel grid is floor division, `voxelize`'s division is embedded as
  exact floor division on rationals (`floor_div`, proved below to equal
  `Int.floor (a / b)` for nonzero divisors).
- The two float ratios of `voxel_scan` (`total_surf / total_vol ** (2/3)` and
  `(total_vox - surf_vox) / total_vox`) are recorded as their exact operand
  pairs; `s_to_v_val` and `core_frac_val` interpret the pairs as the real,
  resp. rational, value the Python expression denotes.  These divisions are
  reached only with `total_vox >= 1`: on an empty voxel grid the scanner
  itself raises first (the x pass of `scan_faces_all` returns a column-less
  empty DataFrame, so the y pass's `groupby(['x_vox', 'z_vox'])` raises
  KeyError), which `count_exposed_faces_checked` models by an explicit
  `Except.error` at the `count_exposed_faces` call boundary.
- `scipy.optimize.curve_fit` is an external collaborator; `_analyze_vox`
  takes the solver as an oracle returning `Option` (with `none` standing for
  the RuntimeError that non-convergence raises).
-/

set_option maxRecDepth 10000

namespace DecodePaint

/-- A localization point: nanometer-scale coordinates (already converted by
`convert_xy`) plus its hdbscan sub-cluster label, as used by the pipeline. -/
structure Point where
  x_nm : ℚ
  y_nm : ℚ
  z : ℚ
  hdbscan : Int
deriving DecidableEq, Repr

/-- One row of the voxel grid: the integer lattice coordinates
(`x_vox`, `y_vox`, `z_vox` columns of the Python DataFrame). -/
structure Voxel where
  x_vox : Int
  y_vox : Int
  z_vox : Int
deriving DecidableEq, Repr

/-- A scanned voxel row carrying the three per-axis face-count columns that
`scan_faces_1d` fills in (`x_faces`, `y_faces`, `z_faces`). -/
structure VRow where
  x_vox : Int
  y_vox : Int
  z_vox : Int
  x_faces : Nat
  y_faces : Nat
  z_faces : Nat
deriving DecidableEq, Repr

/-- A row of `count_exposed_faces`'s `out_data`, after the derived columns
`xy_faces = x_faces + y_faces` and `total_faces = x_faces + y_faces + z_faces`
have been appended. -/
structure OutRow where
  x_vox : Int
  y_vox : Int
  z_vox : Int
  x_faces : Nat
  y_faces : Nat
  z_faces : Nat
  xy_faces : Nat
  total_faces : Nat
deriving DecidableEq, Repr

/-- Exact floor division of rationals, `a // b` of Python floats: the result
of `Int.fdiv` on the cross-multiplied numerators and denominators.  For
`b ≠ 0` this equals `Int.floor (a / b)` (proved below), i.e. rounding toward
negative infinity, also for negative operands. -/
def floor_div (a b : ℚ) : Int :=
  Int.fdiv (a.num * (b.den : Int)) ((a.den : Int) * b.num)

/-- `locsutil.voxelize`: computes the `x_vox`, `y_vox`, `z_vox` columns by
floor-dividing `x_nm`, `y_nm` by `bin_xy` and `z` by `bin_z`. -/
def voxelize (locs_data : List Point) (bin_xy bin_z : ℚ) : List Voxel :=
  locs_data.map fun p =>
    { x_vox := floor_div p.x_nm bin_xy
      y_vox := floor_div p.y_nm bin_xy
      z_vox := floor_div p.z bin_z }

/-- Keep-first deduplication, the model of
`df[~df.duplicated(subset=['x_vox','y_vox','z_vox'])]`: each value is kept at
its first occurrence, later occurrences are dropped. -/
def dedupF {α : Type} [DecidableEq α] : List α → List α
  | [] => []
  | v :: rest => v :: (dedupF rest).filter (fun w => decide (w ≠ v))

/-- Minimum of a list of integers, `Series.min()`; `0` on the empty list
(whose pandas counterpart is never consumed). -/
def minList (l : List Int) : Int :=
  match l with
  | [] => 0
  | x :: xs => xs.foldl min x

/-- `voxelutil.auto_origin_df`: subtract the per-axis minimum and add 1 to
every coordinate (the three column assignments are independent, each using
the untouched column's minimum). -/
def auto_origin_df (df : List Voxel) : List Voxel :=
  df.map fun v =>
    { x_vox := v.x_vox - minList (df.map (·.x_vox)) + 1
      y_vox := v.y_vox - minList (df.map (·.y_vox)) + 1
      z_vox := v.z_vox - minList (df.map (·.z_vox)) + 1 }

/-- The scan axes of `scan_faces`: the string arguments
`'x_vox'`, `'y_vox'`, `'z_vox'`. -/
inductive Axis where
  | X
  | Y
  | Z
deriving DecidableEq, Repr

/-- The scan-axis coordinate of a row (the `axis` column). -/
def acoord (ax : Axis) (r : VRow) : Int :=
  match ax with
  | Axis.X => r.x_vox
  | Axis.Y => r.y_vox
  | Axis.Z => r.z_vox

/-- The `fixed_columns` pair orthogonal to the scan axis: the group key of
`df.groupby(fixed_columns)`. -/
def keyOf (ax : Axis) (r : VRow) : Int × Int :=
  match ax with
  | Axis.X => (r.y_vox, r.z_vox)
  | Axis.Y => (r.x_vox, r.z_vox)
  | Axis.Z => (r.x_vox, r.y_vox)

/-- Write the `face_col` column of the scan axis. -/
def setFace (ax : Axis) (n : Nat) (r : VRow) : VRow :=
  match ax with
  | Axis.X => { r with x_faces := n }
  | Axis.Y => { r with y_faces := n }
  | Axis.Z => { r with z_faces := n }

/-- Read the `face_col` column of the scan axis. -/
def getFace (ax : Axis) (r : VRow) : Nat :=
  match ax with
  | Axis.X => r.x_faces
  | Axis.Y => r.y_faces
  | Axis.Z => r.z_faces

/-- The coordinate triple of a scanned row. -/
def coordsV (r : VRow) : Int × Int × Int :=
  (r.x_vox, r.y_vox, r.z_vox)

/-- Insert one element into a list sorted by the boolean relation `le`. -/
def insertBy {α : Type} (le : α → α → Bool) (x : α) : List α → List α
  | [] => [x]
  | y :: t => if le x y then x :: y :: t else y :: insertBy le x t

/-- Insertion sort by the boolean relation `le`; the model of
`sort_values` (all sort keys in the pipeline are distinct, so stability is
irrelevant). -/
def sortBy {α : Type} (le : α → α → Bool) : List α → List α
  | [] => []
  | x :: t => insertBy le x (sortBy le t)

/-- Row comparison by the scan-axis coordinate (`sort_values(by=axis)`). -/
def rowLe (ax : Axis) (a b : VRow) : Bool :=
  decide (acoord ax a ≤ acoord ax b)

/-- Lexicographic comparison of group keys (pandas sorts group keys). -/
def pairLe (a b : Int × Int) : Bool :=
  decide (a.1 < b.1 ∨ (a.1 = b.1 ∧ a.2 ≤ b.2))

/-- The sorted list of distinct group keys of `df.groupby(fixed_columns)`. -/
def groupKeys (ax : Axis) (df : List VRow) : List (Int × Int) :=
  sortBy pairLe (dedupF (df.map (keyOf ax)))

/-- One column of voxels sharing the two orthogonal coordinates `k`, sorted
ascending by the scan-axis coordinate. -/
def colOf (ax : Axis) (k : Int × Int) (df : List VRow) : List VRow :=
  sortBy (rowLe ax) (df.filter (fun r => decide (keyOf ax r = k)))

/-- Gap marker for one adjacent pair of the sorted column: `1` when the
difference of scan-axis coordinates exceeds 1 (the `diff_col > 1` test of
`scan_faces_1d`), else `0`. -/
def gapb (a b : Int) : Nat :=
  if b - a > 1 then 1 else 0

/-- Face counts of the tail of a column, given the coordinate `prev` of the
element just before it: explicit state passing for the index loop of
`scan_faces_1d` (the `index - 1` back-reference of the gap branch becomes the
`prev` argument, the `index == len - 1` branch the singleton case). -/
def scanColAux (prev : Int) : List Int → List Nat
  | [] => []
  | [x] => [gapb prev x + 1]
  | x :: y :: rest => (gapb prev x + gapb x y) :: scanColAux x (y :: rest)

/-- Face counts of one sorted column of coordinates, the net effect of the
row loop of `scan_faces_1d`: the first row is assigned 1 (low face exposed),
each pair at distance greater than 1 increments both rows of the pair, and
the last row receives one more (high face exposed). -/
def scanCol : List Int → List Nat
  | [] => []
  | [_] => [2]
  | x :: y :: rest => (1 + gapb x y) :: scanColAux x (y :: rest)

/-- Write the face counts of one sorted column into its rows. -/
def applyCol (ax : Axis) (col : List VRow) : List VRow :=
  List.zipWith (fun r n => setFace ax n r) col (scanCol (col.map (acoord ax)))

/-- `voxelutil.scan_faces_1d` (via the dispatch of `scan_faces`): group the
rows by the two orthogonal coordinates, sort each column by the scan-axis
coordinate, assign the face counts, and concatenate the columns. -/
def scan_faces_1d (ax : Axis) (df : List VRow) : List VRow :=
  (groupKeys ax df).flatMap fun k => applyCol ax (colOf ax k df)

/-- `voxelutil.scan_faces_all`: the x pass, then the y pass, then the z
pass. -/
def scan_faces_all (df : List VRow) : List VRow :=
  scan_faces_1d Axis.Z (scan_faces_1d Axis.Y (scan_faces_1d Axis.X df))

/-- A fresh scan row for a grid voxel (face columns not yet assigned;
`scan_faces_1d` initializes its axis column to 0 before marking, so the
initial value is never observed). -/
def mkRow (v : Voxel) : VRow :=
  { x_vox := v.x_vox, y_vox := v.y_vox, z_vox := v.z_vox
    x_faces := 0, y_faces := 0, z_faces := 0 }

/-- Append the derived columns `xy_faces` and `total_faces`. -/
def toOut (r : VRow) : OutRow :=
  { x_vox := r.x_vox, y_vox := r.y_vox, z_vox := r.z_vox
    x_faces := r.x_faces, y_faces := r.y_faces, z_faces := r.z_faces
    xy_faces := r.x_faces + r.y_faces
    total_faces := r.x_faces + r.y_faces + r.z_faces }

/-- The result tuple of `count_exposed_faces`:
`out_data, total_vox, surf_vox, xy_faces, z_faces`. -/
structure FaceScanResult where
  out_data : List OutRow
  total_vox : Nat
  surf_vox : Nat
  xy_faces : Nat
  z_faces : Nat
deriving DecidableEq, Repr

/-- `voxelutil.count_exposed_faces` on a nonempty voxel list: deduplicate the
voxel triples, normalize the origin, run the three scan passes, append the
derived columns, and aggregate the counts.  On an empty list the Python
function does not return: the x pass of `scan_faces_all` yields a
column-less empty DataFrame and the y pass's `groupby(['x_vox', 'z_vox'])`
raises KeyError; that error path is carried by
`count_exposed_faces_checked` below. -/
def count_exposed_faces (locs_group : List Voxel) : FaceScanResult :=
  let grid := auto_origin_df (dedupF locs_group)
  let out := (scan_faces_all (grid.map mkRow)).map toOut
  { out_data := out
    total_vox := out.length
    surf_vox := (out.filter (fun r => decide (r.total_faces ≠ 0))).length
    xy_faces := (out.map (·.xy_faces)).sum
    z_faces := (out.map (·.z_faces)).sum }

/-- A call to `count_exposed_faces` with its empty-input error path: when
the deduplicated grid is empty, the scan aborts with the KeyError that the
y pass's `groupby` raises on the column-less frame returned by the x pass
(before any face counting or ratio arithmetic); otherwise it returns the
result tuple. -/
def count_exposed_faces_checked (locs_group : List Voxel) :
    Except String FaceScanResult :=
  if dedupF locs_group = [] then Except.error "KeyError: x_vox"
  else Except.ok (count_exposed_faces locs_group)

/-- The voxel grid the pipeline builds for one point group: voxelization,
keep-first dedup, origin normalization (the builder steps inlined in
`voxelize` and the head of `count_exposed_faces`). -/
def build_grid (ps : List Point) (bin_xy bin_z : ℚ) : List Voxel :=
  auto_origin_df (dedupF (voxelize ps bin_xy bin_z))

/-- Python `range(start, stop, step)` for positive step, with explicit fuel
(structural recursion so that concrete sweeps evaluate in the kernel). -/
def rangeUpF : Nat → Int → Int → Int → List Int
  | 0, _, _, _ => []
  | fuel + 1, start, stop, step =>
      if start < stop then start :: rangeUpF fuel (start + step) stop step else []

/-- Python `range(start, stop, step)` for negative step. -/
def rangeDownF : Nat → Int → Int → Int → List Int
  | 0, _, _, _ => []
  | fuel + 1, start, stop, step =>
      if stop < start then start :: rangeDownF fuel (start + step) stop step else []

/-- Python `range(start, stop, step)` with nonzero step (the `step = 0` case
raises and is handled at the call site, in `voxel_scan`). -/
def pyRange (start stop step : Int) : List Int :=
  if 0 < step then rangeUpF (stop - start).toNat start stop step
  else if step < 0 then rangeDownF (start - stop).toNat start stop step
  else []

/-- Per-bin face scan of the sweep body:
`count_exposed_faces(voxelize(data, bin, bin))`. -/
def sample (locs : List Point) (bin : Int) : FaceScanResult :=
  count_exposed_faces (voxelize locs (bin : ℚ) (bin : ℚ))

/-- Per-bin `total_vol = total_vox * bin ** 3` of `voxel_scan`. -/
def sampleVol (locs : List Point) (bin : Int) : Int :=
  ((sample locs bin).total_vox : Int) * bin ^ 3

/-- Per-bin `total_surf = (xy_faces + z_faces) * bin ** 2` of `voxel_scan`. -/
def sampleSurf (locs : List Point) (bin : Int) : Int :=
  (((sample locs bin).xy_faces : Int) + ((sample locs bin).z_faces : Int)) * bin ^ 2

/-- The operand pair `(total_surf, total_vol)` of the float expression
`total_surf / (total_vol ** (2 / 3))` appended to `stov_list`. -/
def samplePair (locs : List Point) (bin : Int) : Int × Int :=
  (sampleSurf locs bin, sampleVol locs bin)

/-- The operand pair `(total_vox - surf_vox, total_vox)` of the float
expression `(total_vox - surf_vox) / total_vox` appended to
`core_ratio_list`. -/
def sampleCorePair (locs : List Point) (bin : Int) : Int × Nat :=
  (((sample locs bin).total_vox : Int) - ((sample locs bin).surf_vox : Int),
   (sample locs bin).total_vox)

/-- The real value of the recorded `s_to_v` operand pair,
`surf / vol ** (2 / 3)`. -/
noncomputable def s_to_v_val (p : Int × Int) : ℝ :=
  (p.1 : ℝ) / (p.2 : ℝ) ^ ((2 : ℝ) / 3)

/-- The rational value of the recorded core-fraction operand pair. -/
def core_frac_val (p : Int × Nat) : ℚ :=
  (p.1 : ℚ) / (p.2 : ℚ)

/-- The `s_to_v` sample of the sweep at one bin size, as a real number. -/
noncomputable def sample_stov (locs : List Point) (bin : Int) : ℝ :=
  s_to_v_val (samplePair locs bin)

/-- The loop body chain of `voxel_scan` over a list of bin sizes.  Python
constructs the five lists by repeated `append`; an exception thrown at any
bin discards them and aborts, which the `Except` propagation models.  The
per-bin call `count_exposed_faces(voxelize(data, bin, bin))` raises
(KeyError, inside the face scanner) exactly when the grid is empty, which
happens only for an empty point set; otherwise `total_vox >= 1` and the two
ratio divisions that follow are well defined. -/
def scanGo (locs : List Point) :
    List Int → Except String (List Int × List Int × List Int × List (Int × Int) × List (Int × Nat))
  | [] => Except.ok ([], [], [], [], [])
  | bin :: rest =>
      match count_exposed_faces_checked (voxelize locs (bin : ℚ) (bin : ℚ)) with
      | Except.error e => Except.error e
      | Except.ok res =>
          match scanGo locs rest with
          | Except.error e => Except.error e
          | Except.ok (bins, vols, surfs, stovs, cores) =>
              Except.ok (bin :: bins,
                (res.total_vox : Int) * bin ^ 3 :: vols,
                ((res.xy_faces : Int) + (res.z_faces : Int)) * bin ^ 2 :: surfs,
                (((res.xy_faces : Int) + (res.z_faces : Int)) * bin ^ 2,
                  (res.total_vox : Int) * bin ^ 3) :: stovs,
                ((res.total_vox : Int) - (res.surf_vox : Int), res.total_vox) :: cores)

/-- `voxelscan.voxel_scan`: sweep `bin` over `range(bin_min, bin_max, step)`
with `bin_xy = bin_z = bin`, recording
`(bin_list, vol_list, surf_list, stov_list, core_ratio_list)`.  A zero step
raises `ValueError` inside `range` before the loop. -/
def voxel_scan (locs : List Point) (bin_min bin_max step : Int) :
    Except String (List Int × List Int × List Int × List (Int × Int) × List (Int × Nat)) :=
  if step = 0 then Except.error "ValueError: range() arg 3 must not be zero"
  else scanGo locs (pyRange bin_min bin_max step)

/-- The per-cluster aggregation of `analyze.analyze_clusters`: sum the
`count_exposed_faces` results over the hdbscan sub-groups of one cluster,
then convert to physical units with the float bin sizes. -/
structure ClusterAgg where
  total_vox : ℚ
  total_surf_vox : ℚ
  vol_vox : ℚ
  surf_area : ℚ
deriving Repr

/-- `analyze.analyze_clusters`, restricted to one cluster id: the
accumulation loop over `locs_group.groupby('hdbscan')` followed by
`vol_vox = total_vox * bin_xy ** 2 * bin_z` and
`surf_area = total_xy_faces * bin_xy * bin_z + total_z_faces * bin_xy ** 2`. -/
def analyze_clusters_agg (groups : List (List Voxel)) (bin_xy bin_z : ℚ) : ClusterAgg :=
  let tv := (groups.map (fun g => ((count_exposed_faces g).total_vox : ℚ))).sum
  let sv := (groups.map (fun g => ((count_exposed_faces g).surf_vox : ℚ))).sum
  let xy := (groups.map (fun g => ((count_exposed_faces g).xy_faces : ℚ))).sum
  let zf := (groups.map (fun g => ((count_exposed_faces g).z_faces : ℚ))).sum
  { total_vox := tv
    total_surf_vox := sv
    vol_vox := tv * bin_xy ^ 2 * bin_z
    surf_area := xy * bin_xy * bin_z + zf * bin_xy ^ 2 }

/-- The column lists `_analyze_vox` accumulates before building the result
DataFrame (string conversion by `int2str` is presentation and omitted; the
lists keep the exact values). -/
structure VoxAcc where
  ids : List Int
  total_locs : List Nat
  clusters : List Nat
  bins : List (List Int)
  vols : List (List Int)
  surfs : List (List Int)
  stovs : List (List (Int × Int))
  core_fracs : List (List (Int × Nat))
  params : List (ℚ × ℚ × ℚ)
deriving DecidableEq, Repr

/-- The empty accumulator. -/
def emptyAcc : VoxAcc :=
  { ids := [], total_locs := [], clusters := [], bins := [], vols := [],
    surfs := [], stovs := [], core_fracs := [], params := [] }

/-- The group loop of `voxelscan._analyze_vox`.  Groups below the cutoff are
skipped.  For each processed group the per-group columns are appended; the
sigmoid fit (the external least-squares solver, given as the oracle `fit`,
`none` modelling the RuntimeError of non-convergence) appends to `params`
only on success: the `except RuntimeError` branch only prints. -/
def analyzeVoxGo (bin_min bin_max step : Int) (cutoff : Nat)
    (fit : List Int → List (Int × Nat) → Option (ℚ × ℚ × ℚ)) :
    List (Int × List Point) → Except String VoxAcc
  | [] => Except.ok emptyAcc
  | (i, g) :: rest =>
      if g.length < cutoff then analyzeVoxGo bin_min bin_max step cutoff fit rest
      else
        match voxel_scan g bin_min bin_max step with
        | Except.error e => Except.error e
        | Except.ok (bl, vl, sl, stl, crl) =>
            match analyzeVoxGo bin_min bin_max step cutoff fit rest with
            | Except.error e => Except.error e
            | Except.ok acc =>
                Except.ok
                  { ids := i :: acc.ids
                    total_locs := g.length :: acc.total_locs
                    clusters := (dedupF (g.map (·.hdbscan))).length :: acc.clusters
                    bins := bl :: acc.bins
                    vols := vl :: acc.vols
                    surfs := sl :: acc.surfs
                    stovs := stl :: acc.stovs
                    core_fracs := crl :: acc.core_fracs
                    params :=
                      match fit bl crl with
                      | some p => p :: acc.params
                      | none => acc.params }

/-- `pd.DataFrame(data={...})`: constructing the result table requires all
column lists to have equal length, else pandas raises `ValueError`. -/
def mkFrame (acc : VoxAcc) : Except String VoxAcc :=
  if acc.total_locs.length = acc.ids.length ∧ acc.clusters.length = acc.ids.length ∧
     acc.bins.length = acc.ids.length ∧ acc.vols.length = acc.ids.length ∧
     acc.surfs.length = acc.ids.length ∧ acc.stovs.length = acc.ids.length ∧
     acc.core_fracs.length = acc.ids.length ∧ acc.params.length = acc.ids.length then
    Except.ok acc
  else Except.error "ValueError: All arrays must be of the same length"

/-- `voxelscan._analyze_vox`: run the group loop over the clusters (already
grouped by id) and build the result DataFrame. -/
def analyze_vox_model (groups : List (Int × List Point)) (bin_min bin_max step : Int)
    (cutoff : Nat) (fit : List Int → List (Int × Nat) → Option (ℚ × ℚ × ℚ)) :
    Except String VoxAcc :=
  match analyzeVoxGo bin_min bin_max step cutoff fit groups with
  | Except.error e => Except.error e
  | Except.ok acc => mkFrame acc

/-- Uniform translation of every input point by one offset vector. -/
def translate (ps : List Point) (dx dy dz : ℚ) : List Point :=
  ps.map fun p => { p with x_nm := p.x_nm + dx, y_nm := p.y_nm + dy, z := p.z + dz }

/-- Number of maximal contiguous runs of a sorted column of coordinates: a
new run begins at the head and after every adjacent pair at distance
greater than 1. -/
def countRuns : List Int → Nat
  | [] => 0
  | [_] => 1
  | x :: y :: rest => gapb x y + countRuns (y :: rest)

/-- Integer comparison as a boolean relation, for sorting coordinates. -/
def intLe (a b : Int) : Bool :=
  decide (a ≤ b)

/-- The sorted coordinates of one scanned column, computed from the grid
(canonical: sorting the multiset of scan-axis coordinates of the column). -/
def columnCoords (ax : Axis) (k : Int × Int) (df : List VRow) : List Int :=
  sortBy intLe ((df.filter (fun r => decide (keyOf ax r = k))).map (acoord ax))

/-- Sum of the scan-axis face counts over one column of a scanned grid. -/
def sumFaces (ax : Axis) (k : Int × Int) (df : List VRow) : Nat :=
  ((df.filter (fun r => decide (keyOf ax r = k))).map (getFace ax)).sum

end DecodePaint

namespace DecodePaint

/-! ### Column-scan core lemmas -/

theorem gapb_le_one (a b : Int) : gapb a b ≤ 1 := by
  unfold gapb
  split <;> omega

theorem scanColAux_length (prev : Int) (a : List Int) :
    (scanColAux prev a).length = a.length := by
  induction a generalizing prev with
  | nil => rfl
  | cons x xs ih =>
    cases xs with
    | nil => rfl
    | cons y r => simp [scanColAux, ih x]

theorem scanCol_length (a : List Int) : (scanCol a).length = a.length := by
  match a with
  | [] => rfl
  | [x] => rfl
  | x :: y :: r => simp [scanCol, scanColAux_length]

theorem scanColAux_sum (prev x : Int) (r : List Int) :
    (scanColAux prev (x :: r)).sum + 1 = gapb prev x + 2 * countRuns (x :: r) := by
  induction r generalizing prev x with
  | nil => simp [scanColAux, countRuns]
  | cons y t ih =>
    have h := ih x y
    simp only [scanColAux, countRuns, List.sum_cons] at h ⊢
    omega

theorem scanCol_sum (a : List Int) : (scanCol a).sum = 2 * countRuns a := by
  match a with
  | [] => rfl
  | [x] => rfl
  | x :: y :: r =>
    have h := scanColAux_sum x y r
    simp only [scanCol, countRuns, List.sum_cons] at h ⊢
    omega

theorem scanColAux_le_two (prev : Int) (a : List Int) :
    ∀ m ∈ scanColAux prev a, m ≤ 2 := by
  induction a generalizing prev with
  | nil => intro m hm; simp [scanColAux] at hm
  | cons x xs ih =>
    cases xs with
    | nil =>
      intro m hm
      simp [scanColAux] at hm
      have := gapb_le_one prev x
      omega
    | cons y r =>
      intro m hm
      simp only [scanColAux, List.mem_cons] at hm
      rcases hm with hm | hm
      · have h1 := gapb_le_one prev x
        have h2 := gapb_le_one x y
        omega
      · exact ih x m hm

theorem scanCol_le_two (a : List Int) : ∀ m ∈ scanCol a, m ≤ 2 := by
  match a with
  | [] => intro m hm; simp [scanCol] at hm
  | [x] => intro m hm; simp [scanCol] at hm; omega
  | x :: y :: r =>
    intro m hm
    simp only [scanCol, List.mem_cons] at hm
    rcases hm with hm | hm
    · have := gapb_le_one x y
      omega
    · exact scanColAux_le_two x (y :: r) m hm

theorem scanColAux_getD (a : List Int) (prev : Int) (i : Nat) (hi : i < a.length) :
    (scanColAux prev a).getD i 0 =
      (if i = 0 then gapb prev (a.getD 0 0) else gapb (a.getD (i - 1) 0) (a.getD i 0)) +
      (if i = a.length - 1 then 1 else gapb (a.getD i 0) (a.getD (i + 1) 0)) := by
  induction a generalizing prev i with
  | nil => simp at hi
  | cons x xs ih =>
    cases xs with
    | nil =>
      have hi0 : i = 0 := by simpa using hi
      subst hi0
      simp [scanColAux]
    | cons y r =>
      cases i with
      | zero =>
        have hne : ¬((0 : Nat) = (x :: y :: r).length - 1) := by simp
        simp [scanColAux, hne]
      | succ j =>
        have hj : j < (y :: r).length := by
          simpa using Nat.lt_of_succ_lt_succ hi
        have hrec : (scanColAux prev (x :: y :: r)).getD (j + 1) 0 =
            (scanColAux x (y :: r)).getD j 0 := by
          simp [scanColAux]
        rw [hrec, ih x j hj]
        have hlen : (j = (y :: r).length - 1) ↔ (j + 1 = (x :: y :: r).length - 1) := by
          simp only [List.length_cons]
          omega
        cases j with
        | zero =>
          cases r with
          | nil => simp [scanColAux]
          | cons z t =>
            have h1 : ¬((0 : Nat) = (y :: z :: t).length - 1) := by
              simp only [List.length_cons]
              omega
            have h2 : ¬((0 : Nat) + 1 = (x :: y :: z :: t).length - 1) := by
              simp only [List.length_cons]
              omega
            rw [if_neg h1, if_neg h2, if_pos rfl, if_neg (by omega : ¬((0 : Nat) + 1 = 0))]
            simp
        | succ k =>
          have e1 : (y :: r).getD (k + 1 - 1) 0 = (x :: y :: r).getD (k + 1 + 1 - 1) 0 := by
            simp
          have e2 : (y :: r).getD (k + 1) 0 = (x :: y :: r).getD (k + 1 + 1) 0 := by
            simp
          have e3 : (y :: r).getD (k + 1 + 1) 0 = (x :: y :: r).getD (k + 1 + 1 + 1) 0 := by
            simp
          rw [if_neg (by omega : ¬(k + 1 = 0)), if_neg (by omega : ¬(k + 1 + 1 = 0))]
          rw [e1, e2, e3]
          by_cases hl : k + 1 = (y :: r).length - 1
          · rw [if_pos hl, if_pos (hlen.mp hl)]
          · rw [if_neg hl, if_neg (fun hc => hl (hlen.mpr hc))]

theorem scanCol_getD (a : List Int) (i : Nat) (hi : i < a.length) :
    (scanCol a).getD i 0 =
      (if i = 0 then 1 else gapb (a.getD (i - 1) 0) (a.getD i 0)) +
      (if i = a.length - 1 then 1 else gapb (a.getD i 0) (a.getD (i + 1) 0)) := by
  match a with
  | [] => simp at hi
  | [x] =>
    have hi0 : i = 0 := by simpa using hi
    subst hi0
    simp [scanCol]
  | x :: y :: r =>
    cases i with
    | zero =>
      have hne : ¬((0 : Nat) = (x :: y :: r).length - 1) := by simp
      simp [scanCol, hne]
    | succ j =>
      have hj : j < (y :: r).length := by
        simpa using Nat.lt_of_succ_lt_succ hi
      have hrec : (scanCol (x :: y :: r)).getD (j + 1) 0 =
          (scanColAux x (y :: r)).getD j 0 := by
        simp [scanCol]
      rw [hrec, scanColAux_getD (y :: r) x j hj]
      have hlen : (j = (y :: r).length - 1) ↔ (j + 1 = (x :: y :: r).length - 1) := by
        simp only [List.length_cons]
        omega
      cases j with
      | zero =>
        cases r with
        | nil => simp
        | cons z t =>
          have h1 : ¬((0 : Nat) = (y :: z :: t).length - 1) := by
            simp only [List.length_cons]
            omega
          have h2 : ¬((0 : Nat) + 1 = (x :: y :: z :: t).length - 1) := by
            simp only [List.length_cons]
            omega
          rw [if_neg h1, if_neg h2, if_pos rfl, if_neg (by omega : ¬((0 : Nat) + 1 = 0))]
          simp
      | succ k =>
        have e1 : (y :: r).getD (k + 1 - 1) 0 = (x :: y :: r).getD (k + 1 + 1 - 1) 0 := by
          simp
        have e2 : (y :: r).getD (k + 1) 0 = (x :: y :: r).getD (k + 1 + 1) 0 := by
          simp
        have e3 : (y :: r).getD (k + 1 + 1) 0 = (x :: y :: r).getD (k + 1 + 1 + 1) 0 := by
          simp
        rw [if_neg (by omega : ¬(k + 1 = 0)), if_neg (by omega : ¬(k + 1 + 1 = 0))]
        rw [e1, e2, e3]
        by_cases hl : k + 1 = (y :: r).length - 1
        · rw [if_pos hl, if_pos (hlen.mp hl)]
        · rw [if_neg hl, if_neg (fun hc => hl (hlen.mpr hc))]

end DecodePaint

namespace DecodePaint

/-! ### Sorting lemmas -/

theorem insertBy_perm {α : Type} (le : α → α → Bool) (x : α) (l : List α) :
    (insertBy le x l).Perm (x :: l) := by
  induction l with
  | nil => exact List.Perm.refl _
  | cons y t ih =>
    simp only [insertBy]
    split
    · exact List.Perm.refl _
    · exact (List.Perm.cons y ih).trans (List.Perm.swap x y t)

theorem sortBy_perm {α : Type} (le : α → α → Bool) (l : List α) :
    (sortBy le l).Perm l := by
  induction l with
  | nil => exact List.Perm.refl _
  | cons x t ih =>
    exact (insertBy_perm le x (sortBy le t)).trans (List.Perm.cons x ih)

theorem insertBy_pairwise {α : Type} (le : α → α → Bool)
    (htot : ∀ a b, le a b = true ∨ le b a = true)
    (htrans : ∀ a b c, le a b = true → le b c = true → le a c = true)
    (x : α) (l : List α) (hl : l.Pairwise (fun a b => le a b = true)) :
    (insertBy le x l).Pairwise (fun a b => le a b = true) := by
  induction l with
  | nil => simp [insertBy]
  | cons y t ih =>
    rw [List.pairwise_cons] at hl
    simp only [insertBy]
    split
    · rename_i hxy
      rw [List.pairwise_cons]
      refine ⟨?_, List.pairwise_cons.mpr hl⟩
      intro z hz
      rcases List.mem_cons.mp hz with hz | hz
      · exact hz ▸ hxy
      · exact htrans x y z hxy (hl.1 z hz)
    · rename_i hxy
      have hyx : le y x = true := by
        rcases htot x y with h | h
        · exact absurd h hxy
        · exact h
      rw [List.pairwise_cons]
      refine ⟨?_, ih hl.2⟩
      intro z hz
      have hz2 : z ∈ x :: t := (insertBy_perm le x t).mem_iff.mp hz
      rcases List.mem_cons.mp hz2 with hz2 | hz2
      · exact hz2 ▸ hyx
      · exact hl.1 z hz2

theorem sortBy_pairwise {α : Type} (le : α → α → Bool)
    (htot : ∀ a b, le a b = true ∨ le b a = true)
    (htrans : ∀ a b c, le a b = true → le b c = true → le a c = true)
    (l : List α) :
    (sortBy le l).Pairwise (fun a b => le a b = true) := by
  induction l with
  | nil => simp [sortBy]
  | cons x t ih => exact insertBy_pairwise le htot htrans x (sortBy le t) ih

theorem intLe_total : ∀ a b : Int, intLe a b = true ∨ intLe b a = true := by
  intro a b
  simp only [intLe, decide_eq_true_eq]
  omega

theorem intLe_trans : ∀ a b c : Int, intLe a b = true → intLe b c = true → intLe a c = true := by
  intro a b c
  simp only [intLe, decide_eq_true_eq]
  omega

theorem rowLe_total (ax : Axis) : ∀ a b : VRow, rowLe ax a b = true ∨ rowLe ax b a = true := by
  intro a b
  simp only [rowLe, decide_eq_true_eq]
  omega

theorem rowLe_trans (ax : Axis) :
    ∀ a b c : VRow, rowLe ax a b = true → rowLe ax b c = true → rowLe ax a c = true := by
  intro a b c
  simp only [rowLe, decide_eq_true_eq]
  omega

theorem sorted_perm_eq_int {l1 l2 : List Int} (h : l1.Perm l2)
    (s1 : l1.Pairwise (fun a b : Int => a ≤ b))
    (s2 : l2.Pairwise (fun a b : Int => a ≤ b)) : l1 = l2 := by
  haveI : IsAntisymm Int (fun a b : Int => a ≤ b) := ⟨fun _ _ h1 h2 => le_antisymm h1 h2⟩
  exact List.eq_of_perm_of_sorted h s1 s2

theorem sortBy_int_pairwise (l : List Int) :
    (sortBy intLe l).Pairwise (fun a b : Int => a ≤ b) := by
  exact (sortBy_pairwise intLe intLe_total intLe_trans l).imp
    (fun h => by simpa [intLe] using h)

theorem sortBy_int_congr {l1 l2 : List Int} (h : l1.Perm l2) :
    sortBy intLe l1 = sortBy intLe l2 := by
  refine sorted_perm_eq_int ?_ (sortBy_int_pairwise l1) (sortBy_int_pairwise l2)
  exact (sortBy_perm intLe l1).trans (h.trans (sortBy_perm intLe l2).symm)

/-! ### Dedup and minimum lemmas -/

theorem mem_dedupF {α : Type} [DecidableEq α] (a : α) (l : List α) :
    a ∈ dedupF l ↔ a ∈ l := by
  induction l with
  | nil => simp [dedupF]
  | cons v rest ih =>
    simp only [dedupF, List.mem_cons, List.mem_filter, ih, decide_eq_true_eq]
    constructor
    · rintro (h | ⟨h, _⟩)
      · exact Or.inl h
      · exact Or.inr h
    · rintro (h | h)
      · exact Or.inl h
      · by_cases hv : a = v
        · exact Or.inl hv
        · exact Or.inr ⟨h, hv⟩

theorem dedupF_nodup {α : Type} [DecidableEq α] (l : List α) : (dedupF l).Nodup := by
  induction l with
  | nil => simp [dedupF]
  | cons v rest ih =>
    rw [dedupF, List.nodup_cons]
    refine ⟨?_, ih.filter _⟩
    intro hv
    have := (List.mem_filter.mp hv).2
    simp at this

theorem dedupF_eq_self {α : Type} [DecidableEq α] {l : List α} (hl : l.Nodup) :
    dedupF l = l := by
  induction l with
  | nil => rfl
  | cons v rest ih =>
    rw [List.nodup_cons] at hl
    rw [dedupF, ih hl.2, List.filter_eq_self.mpr]
    intro a ha
    simp only [decide_eq_true_eq]
    intro hav
    exact hl.1 (hav ▸ ha)

theorem dedupF_map {α β : Type} [DecidableEq α] [DecidableEq β] {f : α → β}
    (hf : Function.Injective f) (l : List α) :
    dedupF (l.map f) = (dedupF l).map f := by
  induction l with
  | nil => rfl
  | cons v rest ih =>
    simp only [List.map_cons, dedupF, ih, List.filter_map]
    congr 1
    refine congrArg (List.map f) (List.filter_congr ?_)
    intro a _
    simp only [Function.comp_apply]
    exact decide_eq_decide.mpr ⟨fun h hc => h (congrArg f hc), fun h hc => h (hf hc)⟩

theorem foldl_min_le (l : List Int) (a : Int) :
    l.foldl min a ≤ a ∧ ∀ x ∈ l, l.foldl min a ≤ x := by
  induction l generalizing a with
  | nil => simp
  | cons y ys ih =>
    simp only [List.foldl_cons, List.mem_cons]
    have h := ih (min a y)
    refine ⟨le_trans h.1 (min_le_left a y), ?_⟩
    intro x hx
    rcases hx with hx | hx
    · subst hx
      exact le_trans h.1 (min_le_right a x)
    · exact h.2 x hx

theorem minList_le {l : List Int} {x : Int} (hx : x ∈ l) : minList l ≤ x := by
  match l with
  | [] => simp at hx
  | y :: ys =>
    rw [minList]
    rcases List.mem_cons.mp hx with h | h
    · exact h ▸ (foldl_min_le ys y).1
    · exact (foldl_min_le ys y).2 x h

theorem foldl_min_mem (l : List Int) (a : Int) : l.foldl min a ∈ a :: l := by
  induction l generalizing a with
  | nil => simp
  | cons y ys ih =>
    simp only [List.foldl_cons]
    have h := ih (min a y)
    rcases min_choice a y with hc | hc
    · rcases List.mem_cons.mp h with h1 | h1
      · exact List.mem_cons.mpr (Or.inl (h1.trans hc))
      · exact List.mem_cons.mpr (Or.inr (List.mem_cons.mpr (Or.inr h1)))
    · rcases List.mem_cons.mp h with h1 | h1
      · exact List.mem_cons.mpr (Or.inr (List.mem_cons.mpr (Or.inl (h1.trans hc))))
      · exact List.mem_cons.mpr (Or.inr (List.mem_cons.mpr (Or.inr h1)))

theorem minList_mem {l : List Int} (hl : l ≠ []) : minList l ∈ l := by
  match l with
  | [] => exact absurd rfl hl
  | y :: ys =>
    rw [minList]
    exact foldl_min_mem ys y

theorem foldl_min_add (l : List Int) (a c : Int) :
    (l.map (fun x => x + c)).foldl min (a + c) = l.foldl min a + c := by
  induction l generalizing a with
  | nil => rfl
  | cons y ys ih =>
    simp only [List.map_cons, List.foldl_cons]
    rw [min_add_add_right, ih]

theorem minList_map_add {l : List Int} (hl : l ≠ []) (c : Int) :
    minList (l.map (fun x => x + c)) = minList l + c := by
  match l with
  | [] => exact absurd rfl hl
  | y :: ys =>
    simp only [List.map_cons, minList]
    exact foldl_min_add ys y c

end DecodePaint

namespace DecodePaint

/-! ### Row accessor lemmas -/

theorem getFace_setFace (ax : Axis) (n : Nat) (r : VRow) :
    getFace ax (setFace ax n r) = n := by
  cases ax <;> rfl

theorem getFace_setFace_ne {ax bx : Axis} (h : ax ≠ bx) (n : Nat) (r : VRow) :
    getFace ax (setFace bx n r) = getFace ax r := by
  cases ax <;> cases bx <;> first | rfl | exact absurd rfl h

theorem keyOf_setFace (ax bx : Axis) (n : Nat) (r : VRow) :
    keyOf ax (setFace bx n r) = keyOf ax r := by
  cases ax <;> cases bx <;> rfl

theorem acoord_setFace (ax bx : Axis) (n : Nat) (r : VRow) :
    acoord ax (setFace bx n r) = acoord ax r := by
  cases ax <;> cases bx <;> rfl

theorem coordsV_setFace (bx : Axis) (n : Nat) (r : VRow) :
    coordsV (setFace bx n r) = coordsV r := by
  cases bx <;> rfl

/-! ### zipWith helpers -/

theorem zipWith_map_left {α β γ : Type} (f : α → β → α) (g : α → γ)
    (hg : ∀ a b, g (f a b) = g a) (l1 : List α) (l2 : List β)
    (h : l1.length = l2.length) :
    (List.zipWith f l1 l2).map g = l1.map g := by
  induction l1 generalizing l2 with
  | nil => simp
  | cons a t1 ih =>
    cases l2 with
    | nil => simp at h
    | cons b t2 =>
      simp only [List.zipWith_cons_cons, List.map_cons, hg]
      rw [ih t2 (by simpa using h)]

theorem zipWith_map_right {α β : Type} (f : α → β → α) (g : α → β)
    (hg : ∀ a b, g (f a b) = b) (l1 : List α) (l2 : List β)
    (h : l1.length = l2.length) :
    (List.zipWith f l1 l2).map g = l2 := by
  induction l1 generalizing l2 with
  | nil =>
    cases l2 with
    | nil => simp
    | cons b t2 => simp at h
  | cons a t1 ih =>
    cases l2 with
    | nil => simp at h
    | cons b t2 =>
      simp only [List.zipWith_cons_cons, List.map_cons, hg]
      rw [ih t2 (by simpa using h)]

theorem mem_zipWith {α β γ : Type} {f : α → β → γ} {x : γ} :
    ∀ {l1 : List α} {l2 : List β}, x ∈ List.zipWith f l1 l2 →
      ∃ a ∈ l1, ∃ b ∈ l2, x = f a b := by
  intro l1
  induction l1 with
  | nil => intro l2 h; simp at h
  | cons a t1 ih =>
    intro l2 h
    cases l2 with
    | nil => simp at h
    | cons b t2 =>
      rw [List.zipWith_cons_cons, List.mem_cons] at h
      rcases h with h | h
      · exact ⟨a, List.mem_cons_self a t1, b, List.mem_cons_self b t2, h⟩
      · obtain ⟨a2, ha2, b2, hb2, hx⟩ := ih h
        exact ⟨a2, List.mem_cons_of_mem a ha2, b2, List.mem_cons_of_mem b hb2, hx⟩


/-! ### Column application lemmas -/

theorem applyCol_length (ax : Axis) (col : List VRow) :
    (applyCol ax col).length = col.length := by
  simp [applyCol, List.length_zipWith, scanCol_length]

theorem applyCol_map {β : Type} (ax : Axis) (g : VRow → β)
    (hg : ∀ r n, g (setFace ax n r) = g r) (col : List VRow) :
    (applyCol ax col).map g = col.map g := by
  refine zipWith_map_left _ g hg col _ ?_
  simp [scanCol_length]

theorem applyCol_getFaces (ax : Axis) (col : List VRow) :
    (applyCol ax col).map (getFace ax) = scanCol (col.map (acoord ax)) := by
  refine zipWith_map_right _ (getFace ax) (fun r n => getFace_setFace ax n r) col _ ?_
  simp [scanCol_length]

theorem mem_applyCol {ax : Axis} {col : List VRow} {r : VRow}
    (hr : r ∈ applyCol ax col) :
    ∃ s ∈ col, ∃ m, m ∈ scanCol (col.map (acoord ax)) ∧ r = setFace ax m s := by
  obtain ⟨s, hs, m, hm, hr⟩ := mem_zipWith hr
  exact ⟨s, hs, m, hm, hr⟩

/-! ### Partition of a grid into columns -/

theorem flatMap_congr_mem {κ β : Type} {l : List κ} {f g : κ → List β}
    (h : ∀ a ∈ l, f a = g a) : l.flatMap f = l.flatMap g := by
  induction l with
  | nil => rfl
  | cons a t ih =>
    simp only [List.flatMap_cons]
    rw [h a (List.mem_cons_self a t), ih (fun b hb => h b (List.mem_cons_of_mem a hb))]

theorem flatMap_perm_congr {κ β : Type} {l : List κ} {f g : κ → List β}
    (h : ∀ a ∈ l, (f a).Perm (g a)) : (l.flatMap f).Perm (l.flatMap g) := by
  induction l with
  | nil => exact List.Perm.refl _
  | cons a t ih =>
    simp only [List.flatMap_cons]
    exact (h a (List.mem_cons_self a t)).append
      (ih (fun b hb => h b (List.mem_cons_of_mem a hb)))

theorem partition_perm {α κ : Type} [DecidableEq κ] (key : α → κ) :
    ∀ (keys : List κ) (df : List α), keys.Nodup → (∀ r ∈ df, key r ∈ keys) →
      (keys.flatMap fun k => df.filter (fun r => decide (key r = k))).Perm df := by
  intro keys
  induction keys with
  | nil =>
    intro df _ hcov
    cases df with
    | nil => exact List.Perm.refl _
    | cons r t => exact absurd (hcov r (List.mem_cons_self r t)) (by simp)
  | cons k ks ih =>
    intro df hnd hcov
    rw [List.nodup_cons] at hnd
    have hstep :
        (ks.flatMap fun q => df.filter (fun r => decide (key r = q))) =
          ks.flatMap fun q =>
            (df.filter (fun r => !decide (key r = k))).filter
              (fun r => decide (key r = q)) := by
      refine flatMap_congr_mem ?_
      intro q hq
      have hqk : q ≠ k := fun hc => hnd.1 (hc ▸ hq)
      rw [List.filter_filter]
      refine (List.filter_congr ?_).symm
      intro r _
      by_cases hr : key r = q
      · simp [hr, hqk]
      · simp [hr]
    have hcov2 : ∀ r ∈ df.filter (fun r => !decide (key r = k)), key r ∈ ks := by
      intro r hr
      rw [List.mem_filter] at hr
      have := hcov r hr.1
      rcases List.mem_cons.mp this with h | h
      · exfalso
        simp [h] at hr
      · exact h
    have hperm2 := ih (df.filter (fun r => !decide (key r = k))) hnd.2 hcov2
    rw [List.flatMap_cons, hstep]
    exact (List.Perm.append_left _ hperm2).trans (List.filter_append_perm _ df)

/-! ### Group key lemmas -/

theorem mem_groupKeys {ax : Axis} {df : List VRow} {k : Int × Int} :
    k ∈ groupKeys ax df ↔ ∃ r ∈ df, keyOf ax r = k := by
  rw [groupKeys, (sortBy_perm pairLe _).mem_iff, mem_dedupF, List.mem_map]

theorem groupKeys_nodup (ax : Axis) (df : List VRow) : (groupKeys ax df).Nodup := by
  rw [groupKeys]
  exact ((sortBy_perm pairLe _).nodup_iff).mpr (dedupF_nodup _)

theorem groupKeys_covers {ax : Axis} {df : List VRow} {r : VRow} (hr : r ∈ df) :
    keyOf ax r ∈ groupKeys ax df :=
  mem_groupKeys.mpr ⟨r, hr, rfl⟩

theorem mem_colOf {ax : Axis} {k : Int × Int} {df : List VRow} {r : VRow}
    (hr : r ∈ colOf ax k df) : r ∈ df ∧ keyOf ax r = k := by
  have := (sortBy_perm (rowLe ax) _).mem_iff.mp hr
  rw [List.mem_filter] at this
  exact ⟨this.1, by simpa using this.2⟩

theorem colOf_sorted (ax : Axis) (k : Int × Int) (df : List VRow) :
    (colOf ax k df).Pairwise (fun a b => acoord ax a ≤ acoord ax b) := by
  exact (sortBy_pairwise (rowLe ax) (rowLe_total ax) (rowLe_trans ax) _).imp
    (fun h => by simpa [rowLe] using h)

/-! ### Filter extraction and pass permutation -/

theorem filter_flatMap {κ β : Type} (l : List κ) (f : κ → List β) (p : β → Bool) :
    (l.flatMap f).filter p = l.flatMap fun a => (f a).filter p := by
  induction l with
  | nil => rfl
  | cons a t ih => simp only [List.flatMap_cons, List.filter_append, ih]

theorem flatMap_eq_single {κ β : Type} {l : List κ} {F : κ → List β} {k : κ}
    (hnd : l.Nodup) (hk : k ∈ l) (hother : ∀ q ∈ l, q ≠ k → F q = []) :
    l.flatMap F = F k := by
  induction l with
  | nil => simp at hk
  | cons a t ih =>
    rw [List.nodup_cons] at hnd
    rcases List.mem_cons.mp hk with hak | hkt
    · subst hak
      have : t.flatMap F = [] := by
        rw [List.flatMap_eq_nil_iff]
        intro q hq
        exact hother q (List.mem_cons_of_mem _ hq) (fun hc => hnd.1 (hc ▸ hq))
      simp [this]
    · have ha : F a = [] :=
        hother a (List.mem_cons_self a t) (fun hc => hnd.1 (hc ▸ hkt))
      simp only [List.flatMap_cons, ha, List.nil_append]
      exact ih hnd.2 hkt (fun q hq => hother q (List.mem_cons_of_mem a hq))

theorem mem_applyCol_key {ax : Axis} {q : Int × Int} {df : List VRow} {r : VRow}
    (hr : r ∈ applyCol ax (colOf ax q df)) : keyOf ax r = q := by
  obtain ⟨s, hs, m, _, hr⟩ := mem_applyCol hr
  rw [hr, keyOf_setFace]
  exact (mem_colOf hs).2

theorem scan1d_filter {ax : Axis} {df : List VRow} {k : Int × Int}
    (hk : k ∈ groupKeys ax df) :
    (scan_faces_1d ax df).filter (fun r => decide (keyOf ax r = k)) =
      applyCol ax (colOf ax k df) := by
  rw [scan_faces_1d, filter_flatMap]
  have hagree : ∀ q ∈ groupKeys ax df,
      (applyCol ax (colOf ax q df)).filter (fun r => decide (keyOf ax r = k)) =
        if q = k then applyCol ax (colOf ax k df) else [] := by
    intro q _
    by_cases hq : q = k
    · subst hq
      rw [if_pos rfl, List.filter_eq_self]
      intro r hr
      simpa using mem_applyCol_key hr
    · rw [if_neg hq, List.filter_eq_nil_iff]
      intro r hr
      simp only [decide_eq_true_eq]
      intro hc
      exact hq ((mem_applyCol_key hr) ▸ hc)
  rw [flatMap_congr_mem hagree]
  have := flatMap_eq_single (F := fun q =>
      if q = k then applyCol ax (colOf ax k df) else ([] : List VRow))
    (groupKeys_nodup ax df) hk ?_
  · rw [this]
    simp
  · intro q _ hq
    simp [hq]

theorem scan1d_map_perm {β : Type} (ax : Axis) (g : VRow → β)
    (hg : ∀ r n, g (setFace ax n r) = g r) (df : List VRow) :
    ((scan_faces_1d ax df).map g).Perm (df.map g) := by
  rw [scan_faces_1d, List.map_flatMap]
  have h1 : (groupKeys ax df).flatMap (fun k => (applyCol ax (colOf ax k df)).map g) =
      (groupKeys ax df).flatMap (fun k => (colOf ax k df).map g) := by
    refine flatMap_congr_mem ?_
    intro k _
    exact applyCol_map ax g hg _
  rw [h1]
  have h2 : ((groupKeys ax df).flatMap fun k => (colOf ax k df).map g).Perm
      ((groupKeys ax df).flatMap fun k =>
        (df.filter (fun r => decide (keyOf ax r = k))).map g) := by
    refine flatMap_perm_congr ?_
    intro k _
    exact (sortBy_perm (rowLe ax) _).map g
  refine h2.trans ?_
  rw [← List.map_flatMap]
  exact (partition_perm (keyOf ax) (groupKeys ax df) df (groupKeys_nodup ax df)
    (fun r hr => groupKeys_covers hr)).map g

theorem mem_scan1d {ax : Axis} {df : List VRow} {r : VRow}
    (hr : r ∈ scan_faces_1d ax df) :
    ∃ s ∈ df, ∃ m, m ≤ 2 ∧ r = setFace ax m s := by
  rw [scan_faces_1d, List.mem_flatMap] at hr
  obtain ⟨k, _, hr⟩ := hr
  obtain ⟨s, hs, m, hm, hr⟩ := mem_applyCol hr
  exact ⟨s, (mem_colOf hs).1, m, scanCol_le_two _ m hm, hr⟩

end DecodePaint

namespace DecodePaint

/-! ### Column sums and cross-pass invariance -/

theorem filter_key_map_eq {β : Type} (ax : Axis) (k : Int × Int) (f : VRow → β)
    (l : List VRow) :
    (l.filter (fun r => decide (keyOf ax r = k))).map f =
      ((l.map (fun r => (keyOf ax r, f r))).filter
        (fun p => decide (p.1 = k))).map (fun p => p.2) := by
  rw [List.filter_map, List.map_map]
  rfl

theorem sumFaces_perm {ax : Axis} {k : Int × Int} {l1 l2 : List VRow}
    (h : (l1.map (fun r => (keyOf ax r, getFace ax r))).Perm
      (l2.map (fun r => (keyOf ax r, getFace ax r)))) :
    sumFaces ax k l1 = sumFaces ax k l2 := by
  rw [sumFaces, sumFaces, filter_key_map_eq, filter_key_map_eq]
  exact ((h.filter _).map _).sum_eq

theorem columnCoords_congr {ax : Axis} {k : Int × Int} {l1 l2 : List VRow}
    (h : (l1.map (fun r => (keyOf ax r, acoord ax r))).Perm
      (l2.map (fun r => (keyOf ax r, acoord ax r)))) :
    columnCoords ax k l1 = columnCoords ax k l2 := by
  rw [columnCoords, columnCoords, filter_key_map_eq, filter_key_map_eq]
  exact sortBy_int_congr ((h.filter _).map _)

theorem sumFaces_scan1d_other {ax bx : Axis} (hne : ax ≠ bx) (k : Int × Int)
    (df : List VRow) :
    sumFaces ax k (scan_faces_1d bx df) = sumFaces ax k df := by
  refine sumFaces_perm (scan1d_map_perm bx _ ?_ df)
  intro r n
  rw [keyOf_setFace, getFace_setFace_ne hne]

theorem columnCoords_scan1d (ax bx : Axis) (k : Int × Int) (df : List VRow) :
    columnCoords ax k (scan_faces_1d bx df) = columnCoords ax k df := by
  refine columnCoords_congr (scan1d_map_perm bx _ ?_ df)
  intro r n
  rw [keyOf_setFace, acoord_setFace]

theorem mem_groupKeys_scan1d (ax bx : Axis) (k : Int × Int) (df : List VRow) :
    k ∈ groupKeys ax (scan_faces_1d bx df) ↔ k ∈ groupKeys ax df := by
  rw [mem_groupKeys, mem_groupKeys, ← List.mem_map, ← List.mem_map]
  exact (scan1d_map_perm bx (keyOf ax) (fun r n => keyOf_setFace ax bx n r) df).mem_iff

theorem colOf_coords (ax : Axis) (k : Int × Int) (df : List VRow) :
    (colOf ax k df).map (acoord ax) = columnCoords ax k df := by
  refine sorted_perm_eq_int ?_ ?_ ?_
  · rw [columnCoords]
    exact (((sortBy_perm (rowLe ax) _).map _).trans ((sortBy_perm intLe _).symm)).trans
      (List.Perm.refl _)
  · exact List.pairwise_map.mpr (colOf_sorted ax k df)
  · rw [columnCoords, filter_key_map_eq]
    exact sortBy_int_pairwise _

theorem sumFaces_scan1d_self {ax : Axis} {k : Int × Int} {df : List VRow}
    (hk : k ∈ groupKeys ax df) :
    sumFaces ax k (scan_faces_1d ax df) = 2 * countRuns (columnCoords ax k df) := by
  rw [sumFaces, scan1d_filter hk, applyCol_getFaces, scanCol_sum, colOf_coords]

end DecodePaint

namespace DecodePaint

theorem scan_all_face_bounds (df : List VRow) :
    ∀ r ∈ scan_faces_all df, r.x_faces ≤ 2 ∧ r.y_faces ≤ 2 ∧ r.z_faces ≤ 2 := by
  intro r hr
  rw [scan_faces_all] at hr
  obtain ⟨s, hs, m, hm, hrs⟩ := mem_scan1d hr
  obtain ⟨t, ht, m2, hm2, hst⟩ := mem_scan1d hs
  obtain ⟨u, _, m3, hm3, htu⟩ := mem_scan1d ht
  refine ⟨?_, ?_, ?_⟩
  · show getFace Axis.X r ≤ 2
    rw [hrs, getFace_setFace_ne (by decide : Axis.X ≠ Axis.Z), hst,
      getFace_setFace_ne (by decide : Axis.X ≠ Axis.Y), htu, getFace_setFace]
    exact hm3
  · show getFace Axis.Y r ≤ 2
    rw [hrs, getFace_setFace_ne (by decide : Axis.Y ≠ Axis.Z), hst, getFace_setFace]
    exact hm2
  · show getFace Axis.Z r ≤ 2
    rw [hrs, getFace_setFace]
    exact hm

/-- C2: after the Face-Exposure Scanner runs, every voxel's per-axis face
count is at most 2 (hence one of 0, 1, 2) on each axis, and for every
scanned column the sum of that axis's face counts over the voxels of the
column equals twice the number of maximal contiguous runs of the column. -/
theorem scan_all_invariants (df : List VRow) :
    (∀ r ∈ scan_faces_all df, r.x_faces ≤ 2 ∧ r.y_faces ≤ 2 ∧ r.z_faces ≤ 2) ∧
    (∀ ax k, k ∈ groupKeys ax df →
      sumFaces ax k (scan_faces_all df) = 2 * countRuns (columnCoords ax k df)) := by
  refine ⟨scan_all_face_bounds df, ?_⟩
  intro ax k hk
  rw [scan_faces_all]
  cases ax with
  | X =>
    rw [sumFaces_scan1d_other (by decide : Axis.X ≠ Axis.Z),
      sumFaces_scan1d_other (by decide : Axis.X ≠ Axis.Y),
      sumFaces_scan1d_self hk]
  | Y =>
    rw [sumFaces_scan1d_other (by decide : Axis.Y ≠ Axis.Z),
      sumFaces_scan1d_self ((mem_groupKeys_scan1d Axis.Y Axis.X k df).mpr hk),
      columnCoords_scan1d]
  | Z =>
    rw [sumFaces_scan1d_self ((mem_groupKeys_scan1d Axis.Z Axis.Y k _).mpr
        ((mem_groupKeys_scan1d Axis.Z Axis.X k df).mpr hk)),
      columnCoords_scan1d, columnCoords_scan1d]

/-- Witness for C2 at a concrete grid: a single x column with voxels at
x = 1, 2, 5 (two runs). -/
theorem scan_all_invariants_witness :
    ((1, 1) ∈ groupKeys Axis.X [mkRow ⟨1, 1, 1⟩, mkRow ⟨2, 1, 1⟩, mkRow ⟨5, 1, 1⟩]) ∧
    (∀ r ∈ scan_faces_all [mkRow ⟨1, 1, 1⟩, mkRow ⟨2, 1, 1⟩, mkRow ⟨5, 1, 1⟩],
      r.x_faces ≤ 2 ∧ r.y_faces ≤ 2 ∧ r.z_faces ≤ 2) ∧
    sumFaces Axis.X (1, 1) (scan_faces_all [mkRow ⟨1, 1, 1⟩, mkRow ⟨2, 1, 1⟩, mkRow ⟨5, 1, 1⟩]) =
      2 * countRuns (columnCoords Axis.X (1, 1)
        [mkRow ⟨1, 1, 1⟩, mkRow ⟨2, 1, 1⟩, mkRow ⟨5, 1, 1⟩]) :=
  ⟨by decide,
   (scan_all_invariants [mkRow ⟨1, 1, 1⟩, mkRow ⟨2, 1, 1⟩, mkRow ⟨5, 1, 1⟩]).1,
   (scan_all_invariants [mkRow ⟨1, 1, 1⟩, mkRow ⟨2, 1, 1⟩, mkRow ⟨5, 1, 1⟩]).2
     Axis.X (1, 1) (by decide)⟩

/-- C1: for each axis the scanner processes every column (grouped by the two
orthogonal coordinates, covered by the group keys), sorted ascending by the
scan-axis coordinate; the output rows of a column are exactly the column's
voxels (coordinates unchanged, none created or dropped), and the face count
of the i-th voxel is: 1 for the first plus 1 for a following gap, the gap
marker of the two adjacent differences for interior voxels (distance 1 adds
nothing, distance greater than 1 adds one to each voxel of the pair), and 1
for the last plus 1 for a preceding gap; a singleton column receives 2. -/
theorem scan1d_column_spec (df : List VRow) (ax : Axis) (k : Int × Int)
    (hk : k ∈ groupKeys ax df) :
    (∀ r ∈ df, keyOf ax r ∈ groupKeys ax df) ∧
    (columnCoords ax k df).Pairwise (fun x y : Int => x ≤ y) ∧
    ((scan_faces_1d ax df).filter (fun r => decide (keyOf ax r = k))).map coordsV =
      (colOf ax k df).map coordsV ∧
    ((scan_faces_1d ax df).filter (fun r => decide (keyOf ax r = k))).length =
      (columnCoords ax k df).length ∧
    (∀ i, i < (columnCoords ax k df).length →
      (((scan_faces_1d ax df).filter (fun r => decide (keyOf ax r = k))).map
          (getFace ax)).getD i 0 =
        (if i = 0 then 1
         else gapb ((columnCoords ax k df).getD (i - 1) 0)
           ((columnCoords ax k df).getD i 0)) +
        (if i = (columnCoords ax k df).length - 1 then 1
         else gapb ((columnCoords ax k df).getD i 0)
           ((columnCoords ax k df).getD (i + 1) 0))) := by
  refine ⟨fun r hr => groupKeys_covers hr, ?_, ?_, ?_, ?_⟩
  · rw [columnCoords]
    exact sortBy_int_pairwise _
  · rw [scan1d_filter hk]
    exact applyCol_map ax coordsV (fun r n => coordsV_setFace ax n r) _
  · rw [scan1d_filter hk, applyCol_length, ← colOf_coords, List.length_map]
  · intro i hi
    rw [scan1d_filter hk, applyCol_getFaces, colOf_coords]
    exact scanCol_getD _ i hi

/-- Witness for C1 at a concrete grid: the x column of key (1, 1) holding
voxels at x = 1, 4, 5. -/
theorem scan1d_column_spec_witness :
    ((1, 1) ∈ groupKeys Axis.X [mkRow ⟨1, 1, 1⟩, mkRow ⟨4, 1, 1⟩, mkRow ⟨5, 1, 1⟩]) ∧
    ((∀ r ∈ [mkRow ⟨1, 1, 1⟩, mkRow ⟨4, 1, 1⟩, mkRow ⟨5, 1, 1⟩],
        keyOf Axis.X r ∈ groupKeys Axis.X [mkRow ⟨1, 1, 1⟩, mkRow ⟨4, 1, 1⟩, mkRow ⟨5, 1, 1⟩]) ∧
      (columnCoords Axis.X (1, 1)
        [mkRow ⟨1, 1, 1⟩, mkRow ⟨4, 1, 1⟩, mkRow ⟨5, 1, 1⟩]).Pairwise
          (fun x y : Int => x ≤ y) ∧
      ((scan_faces_1d Axis.X [mkRow ⟨1, 1, 1⟩, mkRow ⟨4, 1, 1⟩, mkRow ⟨5, 1, 1⟩]).filter
          (fun r => decide (keyOf Axis.X r = (1, 1)))).map coordsV =
        (colOf Axis.X (1, 1) [mkRow ⟨1, 1, 1⟩, mkRow ⟨4, 1, 1⟩, mkRow ⟨5, 1, 1⟩]).map coordsV ∧
      ((scan_faces_1d Axis.X [mkRow ⟨1, 1, 1⟩, mkRow ⟨4, 1, 1⟩, mkRow ⟨5, 1, 1⟩]).filter
          (fun r => decide (keyOf Axis.X r = (1, 1)))).length =
        (columnCoords Axis.X (1, 1)
          [mkRow ⟨1, 1, 1⟩, mkRow ⟨4, 1, 1⟩, mkRow ⟨5, 1, 1⟩]).length ∧
      (∀ i, i < (columnCoords Axis.X (1, 1)
          [mkRow ⟨1, 1, 1⟩, mkRow ⟨4, 1, 1⟩, mkRow ⟨5, 1, 1⟩]).length →
        (((scan_faces_1d Axis.X [mkRow ⟨1, 1, 1⟩, mkRow ⟨4, 1, 1⟩, mkRow ⟨5, 1, 1⟩]).filter
            (fun r => decide (keyOf Axis.X r = (1, 1)))).map (getFace Axis.X)).getD i 0 =
          (if i = 0 then 1
           else gapb ((columnCoords Axis.X (1, 1)
               [mkRow ⟨1, 1, 1⟩, mkRow ⟨4, 1, 1⟩, mkRow ⟨5, 1, 1⟩]).getD (i - 1) 0)
             ((columnCoords Axis.X (1, 1)
               [mkRow ⟨1, 1, 1⟩, mkRow ⟨4, 1, 1⟩, mkRow ⟨5, 1, 1⟩]).getD i 0)) +
          (if i = (columnCoords Axis.X (1, 1)
              [mkRow ⟨1, 1, 1⟩, mkRow ⟨4, 1, 1⟩, mkRow ⟨5, 1, 1⟩]).length - 1 then 1
           else gapb ((columnCoords Axis.X (1, 1)
               [mkRow ⟨1, 1, 1⟩, mkRow ⟨4, 1, 1⟩, mkRow ⟨5, 1, 1⟩]).getD i 0)
             ((columnCoords Axis.X (1, 1)
               [mkRow ⟨1, 1, 1⟩, mkRow ⟨4, 1, 1⟩, mkRow ⟨5, 1, 1⟩]).getD (i + 1) 0)))) :=
  ⟨by decide,
   scan1d_column_spec [mkRow ⟨1, 1, 1⟩, mkRow ⟨4, 1, 1⟩, mkRow ⟨5, 1, 1⟩] Axis.X (1, 1)
     (by decide)⟩

theorem scan_all_coords_perm (df : List VRow) :
    ((scan_faces_all df).map coordsV).Perm (df.map coordsV) := by
  have p1 := scan1d_map_perm Axis.X coordsV (fun r n => coordsV_setFace Axis.X n r) df
  have p2 := scan1d_map_perm Axis.Y coordsV (fun r n => coordsV_setFace Axis.Y n r)
    (scan_faces_1d Axis.X df)
  have p3 := scan1d_map_perm Axis.Z coordsV (fun r n => coordsV_setFace Axis.Z n r)
    (scan_faces_1d Axis.Y (scan_faces_1d Axis.X df))
  rw [scan_faces_all]
  exact (p3.trans p2).trans p1

/-- C10: the scanner preserves the voxel set of a deduplicated grid: the
output coordinate triples are a permutation of the input ones (no voxel
dropped, duplicated, or created by the three axis passes) and remain
duplicate-free. -/
theorem scanner_preserves_voxels (df : List VRow) (hnd : (df.map coordsV).Nodup) :
    ((scan_faces_all df).map coordsV).Perm (df.map coordsV) ∧
    ((scan_faces_all df).map coordsV).Nodup := by
  have hp := scan_all_coords_perm df
  exact ⟨hp, hp.nodup_iff.mpr hnd⟩

/-- Witness for C10 at a concrete deduplicated grid of three voxels. -/
theorem scanner_preserves_voxels_witness :
    (([mkRow ⟨1, 1, 1⟩, mkRow ⟨2, 1, 1⟩, mkRow ⟨2, 2, 1⟩].map coordsV).Nodup) ∧
    ((scan_faces_all [mkRow ⟨1, 1, 1⟩, mkRow ⟨2, 1, 1⟩, mkRow ⟨2, 2, 1⟩]).map coordsV).Perm
      ([mkRow ⟨1, 1, 1⟩, mkRow ⟨2, 1, 1⟩, mkRow ⟨2, 2, 1⟩].map coordsV) ∧
    ((scan_faces_all [mkRow ⟨1, 1, 1⟩, mkRow ⟨2, 1, 1⟩, mkRow ⟨2, 2, 1⟩]).map coordsV).Nodup :=
  ⟨by decide,
   (scanner_preserves_voxels [mkRow ⟨1, 1, 1⟩, mkRow ⟨2, 1, 1⟩, mkRow ⟨2, 2, 1⟩] (by decide)).1,
   (scanner_preserves_voxels [mkRow ⟨1, 1, 1⟩, mkRow ⟨2, 1, 1⟩, mkRow ⟨2, 2, 1⟩] (by decide)).2⟩

end DecodePaint

namespace DecodePaint

/-! ### Floor division bridge and builder lemmas -/

theorem floor_div_eq {a b : ℚ} (hb : 0 < b) : floor_div a b = ⌊a / b⌋ := by
  have hbnum : 0 < b.num := Rat.num_pos.mpr hb
  obtain ⟨n, hn⟩ : ∃ n : ℕ, b.num = (n : Int) :=
    ⟨b.num.toNat, (Int.toNat_of_nonneg hbnum.le).symm⟩
  have hn0 : 0 < n := by
    rw [hn] at hbnum
    exact_mod_cast hbnum
  have hadnz : (a.den : ℚ) ≠ 0 := by
    exact_mod_cast a.den_nz
  have hbdnz : (b.den : ℚ) ≠ 0 := by
    exact_mod_cast b.den_nz
  have hden0 : ((a.den * n : ℕ) : ℚ) ≠ 0 := by
    exact_mod_cast Nat.mul_ne_zero a.den_nz hn0.ne.symm
  have hada : a * (a.den : ℚ) = (a.num : ℚ) :=
    (eq_div_iff hadnz).mp (Rat.num_div_den a).symm
  have hbdb : b * (b.den : ℚ) = (b.num : ℚ) :=
    (eq_div_iff hbdnz).mp (Rat.num_div_den b).symm
  have hnq : ((n : ℚ)) = ((b.num : ℚ)) := by
    exact_mod_cast hn.symm
  have hval : a / b = ((a.num * (b.den : Int) : Int) : ℚ) / ((a.den * n : ℕ) : ℚ) := by
    rw [div_eq_div_iff (ne_of_gt hb) hden0]
    push_cast
    calc a * ((a.den : ℚ) * (n : ℚ)) = (a * (a.den : ℚ)) * (n : ℚ) := by ring
      _ = (a.num : ℚ) * (b.num : ℚ) := by rw [hada, hnq]
      _ = (a.num : ℚ) * (b.den : ℚ) * b := by rw [← hbdb]; ring
  rw [hval, Rat.floor_intCast_div_natCast, floor_div,
    Int.fdiv_eq_ediv _ (by positivity)]
  congr 1
  rw [hn]
  push_cast
  ring

theorem minList_eq_of_mem_iff {l1 l2 : List Int} (h1 : l1 ≠ []) (h2 : l2 ≠ [])
    (h : ∀ x, x ∈ l1 ↔ x ∈ l2) : minList l1 = minList l2 :=
  le_antisymm (minList_le ((h _).mpr (minList_mem h2)))
    (minList_le ((h _).mp (minList_mem h1)))

theorem dedupF_ne_nil {α : Type} [DecidableEq α] {l : List α} (h : l ≠ []) :
    dedupF l ≠ [] := by
  cases l with
  | nil => exact absurd rfl h
  | cons v rest => simp [dedupF]

theorem minList_map_dedupF {f : Voxel → Int} {l : List Voxel} (h : l ≠ []) :
    minList ((dedupF l).map f) = minList (l.map f) := by
  refine minList_eq_of_mem_iff ?_ ?_ ?_
  · simpa using dedupF_ne_nil h
  · simpa using h
  · intro x
    simp only [List.mem_map, mem_dedupF]

theorem auto_origin_mem {df : List Voxel} {v : Voxel} :
    v ∈ auto_origin_df df ↔ ∃ w ∈ df,
      v = { x_vox := w.x_vox - minList (df.map (·.x_vox)) + 1
            y_vox := w.y_vox - minList (df.map (·.y_vox)) + 1
            z_vox := w.z_vox - minList (df.map (·.z_vox)) + 1 } := by
  simp only [auto_origin_df, List.mem_map]
  constructor
  · rintro ⟨w, hw, rfl⟩
    exact ⟨w, hw, rfl⟩
  · rintro ⟨w, hw, rfl⟩
    exact ⟨w, hw, rfl⟩

theorem auto_origin_nodup {df : List Voxel} (h : df.Nodup) :
    (auto_origin_df df).Nodup := by
  rw [auto_origin_df]
  refine h.map ?_
  intro v w hvw
  have hx := congrArg Voxel.x_vox hvw
  have hy := congrArg Voxel.y_vox hvw
  have hz := congrArg Voxel.z_vox hvw
  simp only at hx hy hz
  cases v
  cases w
  simp only [Voxel.mk.injEq] at hx hy hz ⊢
  omega

/-- C3: the builder floor-divides every point's coordinates (rounding toward
negative infinity, also for negative coordinates), keeps each distinct voxel
triple exactly once, translates by the per-axis minimum plus one, and yields
a grid all of whose coordinates are at least 1. -/
theorem voxel_grid_builder_spec (ps : List Point) (bxy bz : ℚ)
    (hx : 0 < bxy) (hz : 0 < bz) :
    (∀ p ∈ ps,
      ({ x_vox := ⌊p.x_nm / bxy⌋, y_vox := ⌊p.y_nm / bxy⌋, z_vox := ⌊p.z / bz⌋ } : Voxel) ∈
        voxelize ps bxy bz) ∧
    (build_grid ps bxy bz).Nodup ∧
    (∀ v ∈ build_grid ps bxy bz, ∃ w ∈ voxelize ps bxy bz,
      v = { x_vox := w.x_vox - minList ((voxelize ps bxy bz).map (·.x_vox)) + 1
            y_vox := w.y_vox - minList ((voxelize ps bxy bz).map (·.y_vox)) + 1
            z_vox := w.z_vox - minList ((voxelize ps bxy bz).map (·.z_vox)) + 1 }) ∧
    (∀ w ∈ voxelize ps bxy bz,
      ({ x_vox := w.x_vox - minList ((voxelize ps bxy bz).map (·.x_vox)) + 1
         y_vox := w.y_vox - minList ((voxelize ps bxy bz).map (·.y_vox)) + 1
         z_vox := w.z_vox - minList ((voxelize ps bxy bz).map (·.z_vox)) + 1 } : Voxel) ∈
        build_grid ps bxy bz) ∧
    (∀ v ∈ build_grid ps bxy bz, 1 ≤ v.x_vox ∧ 1 ≤ v.y_vox ∧ 1 ≤ v.z_vox) := by
  have hmins : ∀ f : Voxel → Int, ps ≠ [] →
      minList ((dedupF (voxelize ps bxy bz)).map f) =
        minList ((voxelize ps bxy bz).map f) := by
    intro f hne
    refine minList_map_dedupF ?_
    simp [voxelize, hne]
  refine ⟨?_, ?_, ?_, ?_, ?_⟩
  · intro p hp
    have : ({ x_vox := ⌊p.x_nm / bxy⌋, y_vox := ⌊p.y_nm / bxy⌋, z_vox := ⌊p.z / bz⌋ } : Voxel) =
        { x_vox := floor_div p.x_nm bxy, y_vox := floor_div p.y_nm bxy
          z_vox := floor_div p.z bz } := by
      rw [floor_div_eq hx, floor_div_eq hx, floor_div_eq hz]
    rw [this, voxelize]
    exact List.mem_map_of_mem _ hp
  · exact auto_origin_nodup (dedupF_nodup _)
  · intro v hv
    have hne : ps ≠ [] := by
      intro hc
      subst hc
      simp [build_grid, voxelize, dedupF, auto_origin_df] at hv
    obtain ⟨w, hw, hv⟩ := auto_origin_mem.mp hv
    refine ⟨w, (mem_dedupF w _).mp hw, ?_⟩
    rw [hv, hmins _ hne, hmins _ hne, hmins _ hne]
  · intro w hw
    have hne : ps ≠ [] := by
      intro hc
      subst hc
      simp [voxelize] at hw
    rw [build_grid]
    refine auto_origin_mem.mpr ⟨w, (mem_dedupF w _).mpr hw, ?_⟩
    rw [hmins _ hne, hmins _ hne, hmins _ hne]
  · intro v hv
    have hne : ps ≠ [] := by
      intro hc
      subst hc
      simp [build_grid, voxelize, dedupF, auto_origin_df] at hv
    obtain ⟨w, hw, hv⟩ := auto_origin_mem.mp hv
    have h1 : minList ((dedupF (voxelize ps bxy bz)).map (·.x_vox)) ≤ w.x_vox :=
      minList_le (List.mem_map_of_mem _ hw)
    have h2 : minList ((dedupF (voxelize ps bxy bz)).map (·.y_vox)) ≤ w.y_vox :=
      minList_le (List.mem_map_of_mem _ hw)
    have h3 : minList ((dedupF (voxelize ps bxy bz)).map (·.z_vox)) ≤ w.z_vox :=
      minList_le (List.mem_map_of_mem _ hw)
    rw [hv]
    dsimp only
    refine ⟨by omega, by omega, by omega⟩

/-- Witness for C3: three points, one with a negative x coordinate whose
floor division must round down to -1, at bin sizes 15. -/
theorem voxel_grid_builder_spec_witness :
    (0 < (15 : ℚ)) ∧
    ((∀ p ∈ [({ x_nm := -7, y_nm := 3, z := 0, hdbscan := 0 } : Point),
              { x_nm := 8, y_nm := 3, z := 0, hdbscan := 0 },
              { x_nm := 8, y_nm := 3, z := 0, hdbscan := 0 }],
      ({ x_vox := ⌊p.x_nm / 15⌋, y_vox := ⌊p.y_nm / 15⌋, z_vox := ⌊p.z / 15⌋ } : Voxel) ∈
        voxelize [({ x_nm := -7, y_nm := 3, z := 0, hdbscan := 0 } : Point),
              { x_nm := 8, y_nm := 3, z := 0, hdbscan := 0 },
              { x_nm := 8, y_nm := 3, z := 0, hdbscan := 0 }] 15 15) ∧
    (build_grid [({ x_nm := -7, y_nm := 3, z := 0, hdbscan := 0 } : Point),
              { x_nm := 8, y_nm := 3, z := 0, hdbscan := 0 },
              { x_nm := 8, y_nm := 3, z := 0, hdbscan := 0 }] 15 15).Nodup ∧
    (∀ v ∈ build_grid [({ x_nm := -7, y_nm := 3, z := 0, hdbscan := 0 } : Point),
              { x_nm := 8, y_nm := 3, z := 0, hdbscan := 0 },
              { x_nm := 8, y_nm := 3, z := 0, hdbscan := 0 }] 15 15,
      ∃ w ∈ voxelize [({ x_nm := -7, y_nm := 3, z := 0, hdbscan := 0 } : Point),
              { x_nm := 8, y_nm := 3, z := 0, hdbscan := 0 },
              { x_nm := 8, y_nm := 3, z := 0, hdbscan := 0 }] 15 15,
      v = { x_vox := w.x_vox - minList ((voxelize [({ x_nm := -7, y_nm := 3, z := 0, hdbscan := 0 } : Point),
              { x_nm := 8, y_nm := 3, z := 0, hdbscan := 0 },
              { x_nm := 8, y_nm := 3, z := 0, hdbscan := 0 }] 15 15).map (·.x_vox)) + 1
            y_vox := w.y_vox - minList ((voxelize [({ x_nm := -7, y_nm := 3, z := 0, hdbscan := 0 } : Point),
              { x_nm := 8, y_nm := 3, z := 0, hdbscan := 0 },
              { x_nm := 8, y_nm := 3, z := 0, hdbscan := 0 }] 15 15).map (·.y_vox)) + 1
            z_vox := w.z_vox - minList ((voxelize [({ x_nm := -7, y_nm := 3, z := 0, hdbscan := 0 } : Point),
              { x_nm := 8, y_nm := 3, z := 0, hdbscan := 0 },
              { x_nm := 8, y_nm := 3, z := 0, hdbscan := 0 }] 15 15).map (·.z_vox)) + 1 }) ∧
    (∀ w ∈ voxelize [({ x_nm := -7, y_nm := 3, z := 0, hdbscan := 0 } : Point),
              { x_nm := 8, y_nm := 3, z := 0, hdbscan := 0 },
              { x_nm := 8, y_nm := 3, z := 0, hdbscan := 0 }] 15 15,
      ({ x_vox := w.x_vox - minList ((voxelize [({ x_nm := -7, y_nm := 3, z := 0, hdbscan := 0 } : Point),
              { x_nm := 8, y_nm := 3, z := 0, hdbscan := 0 },
              { x_nm := 8, y_nm := 3, z := 0, hdbscan := 0 }] 15 15).map (·.x_vox)) + 1
         y_vox := w.y_vox - minList ((voxelize [({ x_nm := -7, y_nm := 3, z := 0, hdbscan := 0 } : Point),
              { x_nm := 8, y_nm := 3, z := 0, hdbscan := 0 },
              { x_nm := 8, y_nm := 3, z := 0, hdbscan := 0 }] 15 15).map (·.y_vox)) + 1
         z_vox := w.z_vox - minList ((voxelize [({ x_nm := -7, y_nm := 3, z := 0, hdbscan := 0 } : Point),
              { x_nm := 8, y_nm := 3, z := 0, hdbscan := 0 },
              { x_nm := 8, y_nm := 3, z := 0, hdbscan := 0 }] 15 15).map (·.z_vox)) + 1 } : Voxel) ∈
        build_grid [({ x_nm := -7, y_nm := 3, z := 0, hdbscan := 0 } : Point),
              { x_nm := 8, y_nm := 3, z := 0, hdbscan := 0 },
              { x_nm := 8, y_nm := 3, z := 0, hdbscan := 0 }] 15 15) ∧
    (∀ v ∈ build_grid [({ x_nm := -7, y_nm := 3, z := 0, hdbscan := 0 } : Point),
              { x_nm := 8, y_nm := 3, z := 0, hdbscan := 0 },
              { x_nm := 8, y_nm := 3, z := 0, hdbscan := 0 }] 15 15,
      1 ≤ v.x_vox ∧ 1 ≤ v.y_vox ∧ 1 ≤ v.z_vox)) :=
  ⟨by norm_num,
   voxel_grid_builder_spec
     [({ x_nm := -7, y_nm := 3, z := 0, hdbscan := 0 } : Point),
      { x_nm := 8, y_nm := 3, z := 0, hdbscan := 0 },
      { x_nm := 8, y_nm := 3, z := 0, hdbscan := 0 }] 15 15 (by norm_num) (by norm_num)⟩

end DecodePaint

namespace DecodePaint

/-! ### Aggregation formulas (C4) -/

theorem count_xy_sum (g : List Voxel) :
    ((count_exposed_faces g).xy_faces : ℚ) =
      ((count_exposed_faces g).out_data.map
        (fun r => ((r.x_faces : ℚ) + (r.y_faces : ℚ)))).sum := by
  have hmem : ∀ r ∈ (count_exposed_faces g).out_data,
      ((r.xy_faces : ℚ)) = ((r.x_faces : ℚ) + (r.y_faces : ℚ)) := by
    intro r hr
    simp only [count_exposed_faces, List.mem_map] at hr
    obtain ⟨s, _, rfl⟩ := hr
    simp [toOut]
  have h1 : ((count_exposed_faces g).xy_faces : ℚ) =
      ((count_exposed_faces g).out_data.map (fun r => ((r.xy_faces : ℚ)))).sum := by
    rw [count_exposed_faces]
    push_cast [Nat.cast_list_sum]
    rw [List.map_map]
    rfl
  rw [h1, List.map_congr_left hmem]

theorem count_z_sum (g : List Voxel) :
    ((count_exposed_faces g).z_faces : ℚ) =
      ((count_exposed_faces g).out_data.map (fun r => ((r.z_faces : ℚ)))).sum := by
  rw [count_exposed_faces]
  push_cast [Nat.cast_list_sum]
  rw [List.map_map]
  rfl

/-- C4: the aggregated volume is `total_voxel_count * bin_xy ^ 2 * bin_z`,
the aggregated surface area is the sum over all voxels of
`x_faces + y_faces` times `bin_xy * bin_z` plus the sum of `z_faces` times
`bin_xy ^ 2`, and the multi-scale sweep's per-bin volume and surface (with
`bin_xy = bin_z = bin`) are these formulas specialized, reducing to
`total_vox * bin ^ 3` and `(xy_faces + z_faces) * bin ^ 2`. -/
theorem aggregate_formulas (groups : List (List Voxel)) (bin_xy bin_z : ℚ)
    (locs : List Point) (bin : Int) :
    (analyze_clusters_agg groups bin_xy bin_z).vol_vox =
      (analyze_clusters_agg groups bin_xy bin_z).total_vox * bin_xy ^ 2 * bin_z ∧
    (analyze_clusters_agg groups bin_xy bin_z).surf_area =
      ((groups.map (fun g =>
        (((count_exposed_faces g).out_data.map
          (fun r => ((r.x_faces : ℚ) + (r.y_faces : ℚ)))).sum))).sum) * bin_xy * bin_z +
      ((groups.map (fun g =>
        (((count_exposed_faces g).out_data.map
          (fun r => ((r.z_faces : ℚ)))).sum))).sum) * bin_xy ^ 2 ∧
    sampleVol locs bin = ((sample locs bin).total_vox : Int) * bin ^ 2 * bin ∧
    sampleSurf locs bin =
      ((sample locs bin).xy_faces : Int) * bin * bin +
        ((sample locs bin).z_faces : Int) * bin ^ 2 := by
  refine ⟨rfl, ?_, by rw [sampleVol]; ring, by rw [sampleSurf]; ring⟩
  rw [analyze_clusters_agg]
  have hxy : (groups.map (fun g => ((count_exposed_faces g).xy_faces : ℚ))) =
      groups.map (fun g =>
        (((count_exposed_faces g).out_data.map
          (fun r => ((r.x_faces : ℚ) + (r.y_faces : ℚ)))).sum)) :=
    List.map_congr_left (fun g _ => count_xy_sum g)
  have hz : (groups.map (fun g => ((count_exposed_faces g).z_faces : ℚ))) =
      groups.map (fun g =>
        (((count_exposed_faces g).out_data.map (fun r => ((r.z_faces : ℚ)))).sum)) :=
    List.map_congr_left (fun g _ => count_z_sum g)
  rw [hxy, hz]

/-! ### Sweep lemmas (C8) -/

theorem scan_all_length (df : List VRow) : (scan_faces_all df).length = df.length := by
  have h := (scan_all_coords_perm df).length_eq
  simpa using h

theorem count_total_vox (locs : List Voxel) :
    (count_exposed_faces locs).total_vox = (dedupF locs).length := by
  rw [count_exposed_faces]
  simp [scan_all_length, auto_origin_df]

theorem total_vox_ne_zero {locs : List Point} (h : locs ≠ []) (bxy bz : ℚ) :
    (count_exposed_faces (voxelize locs bxy bz)).total_vox ≠ 0 := by
  rw [count_total_vox]
  intro hc
  rw [List.length_eq_zero] at hc
  have hne : voxelize locs bxy bz ≠ [] := by
    simp [voxelize, h]
  exact dedupF_ne_nil hne hc

theorem scanGo_ok (locs : List Point) (h : locs ≠ []) (l : List Int) :
    scanGo locs l = Except.ok (l, l.map (sampleVol locs), l.map (sampleSurf locs),
      l.map (samplePair locs), l.map (sampleCorePair locs)) := by
  induction l with
  | nil => rfl
  | cons bin rest ih =>
    have hvne : voxelize locs (bin : ℚ) (bin : ℚ) ≠ [] := by
      simp [voxelize, h]
    have hchk : count_exposed_faces_checked (voxelize locs (bin : ℚ) (bin : ℚ)) =
        Except.ok (sample locs bin) := by
      rw [count_exposed_faces_checked, if_neg (dedupF_ne_nil hvne)]
      rfl
    rw [scanGo, hchk, ih]
    rfl

/-- C8: with a positive step and a nonempty point set, the sweep runs over
exactly the half-open stepped range from `bin_min` (inclusive) to `bin_max`
(exclusive), with `bin_xy = bin_z = bin`, recording the bin, volume,
surface, s_to_v operands and core-fraction operands once per bin, in
order. -/
theorem voxel_scan_sweep_spec (locs : List Point) (bin_min bin_max step : Int)
    (hstep : 0 < step) (_hmin : 0 < bin_min) (hne : locs ≠ []) :
    voxel_scan locs bin_min bin_max step =
      Except.ok (pyRange bin_min bin_max step,
        (pyRange bin_min bin_max step).map (sampleVol locs),
        (pyRange bin_min bin_max step).map (sampleSurf locs),
        (pyRange bin_min bin_max step).map (samplePair locs),
        (pyRange bin_min bin_max step).map (sampleCorePair locs)) := by
  rw [voxel_scan, if_neg (by omega : ¬(step = 0)), scanGo_ok locs hne]

/-- Witness for C8: the sweep of the spec example, bins 10 to 20 step 5,
yielding exactly the two samples at 10 and 15. -/
theorem voxel_scan_sweep_spec_witness :
    pyRange 10 20 5 = [10, 15] ∧
    (0 < (5 : Int)) ∧ (0 < (10 : Int)) ∧
    ([({ x_nm := 0, y_nm := 0, z := 0, hdbscan := 0 } : Point)] ≠ []) ∧
    voxel_scan [({ x_nm := 0, y_nm := 0, z := 0, hdbscan := 0 } : Point)] 10 20 5 =
      Except.ok (pyRange 10 20 5,
        (pyRange 10 20 5).map (sampleVol [({ x_nm := 0, y_nm := 0, z := 0, hdbscan := 0 } : Point)]),
        (pyRange 10 20 5).map (sampleSurf [({ x_nm := 0, y_nm := 0, z := 0, hdbscan := 0 } : Point)]),
        (pyRange 10 20 5).map (samplePair [({ x_nm := 0, y_nm := 0, z := 0, hdbscan := 0 } : Point)]),
        (pyRange 10 20 5).map (sampleCorePair [({ x_nm := 0, y_nm := 0, z := 0, hdbscan := 0 } : Point)])) :=
  ⟨by decide, by decide, by decide, by decide,
   voxel_scan_sweep_spec [({ x_nm := 0, y_nm := 0, z := 0, hdbscan := 0 } : Point)]
     10 20 5 (by decide) (by decide) (by decide)⟩

end DecodePaint

namespace DecodePaint

/-! ### Range lemmas and error-handling claims -/

theorem rangeUpF_nil (fuel : Nat) (start stop step : Int) (h : ¬(start < stop)) :
    rangeUpF fuel start stop step = [] := by
  cases fuel with
  | zero => rfl
  | succ f => simp [rangeUpF, h]

theorem rangeUpF_fuel {stop step : Int} (hstep : 0 < step) :
    ∀ (f1 f2 : Nat) (start : Int), (stop - start).toNat ≤ f1 → (stop - start).toNat ≤ f2 →
      rangeUpF f1 start stop step = rangeUpF f2 start stop step := by
  intro f1
  induction f1 with
  | zero =>
    intro f2 start h1 h2
    have hns : ¬(start < stop) := by omega
    rw [rangeUpF_nil _ _ _ _ hns, rangeUpF_nil _ _ _ _ hns]
  | succ f ih =>
    intro f2 start h1 h2
    by_cases hlt : start < stop
    · cases f2 with
      | zero => omega
      | succ f2p =>
        rw [rangeUpF, rangeUpF, if_pos hlt, if_pos hlt]
        congr 1
        exact ih f2p (start + step) (by omega) (by omega)
    · rw [rangeUpF_nil _ _ _ _ hlt, rangeUpF_nil _ _ _ _ hlt]

theorem pyRange_nil {start stop step : Int} (hstep : 0 < step) (hle : stop ≤ start) :
    pyRange start stop step = [] := by
  rw [pyRange, if_pos hstep]
  exact rangeUpF_nil _ _ _ _ (by omega)

theorem pyRange_cons {start stop step : Int} (hstep : 0 < step) (hlt : start < stop) :
    pyRange start stop step = start :: pyRange (start + step) stop step := by
  rw [pyRange, pyRange, if_pos hstep, if_pos hstep]
  have h1 : (stop - start).toNat = ((stop - start).toNat - 1) + 1 := by omega
  rw [h1, rangeUpF, if_pos hlt]
  congr 1
  exact rangeUpF_fuel hstep _ _ _ (by omega) (by omega)

/-- C6 counterexample: the builder does not reject non-positive bin sizes
(it voxelizes with a negative bin by floor division, producing a result
instead of an InvalidBinSize error), and the sweep does not reject
`bin_max <= bin_min` (it returns an empty result instead of an InvalidRange
error). -/
theorem no_validation_counterexample :
    voxelize [({ x_nm := 7, y_nm := 3, z := 2, hdbscan := 0 } : Point)] (-5) (-5) =
      [{ x_vox := -2, y_vox := -1, z_vox := -1 }] ∧
    voxel_scan [({ x_nm := 0, y_nm := 0, z := 0, hdbscan := 0 } : Point)] 20 10 5 =
      Except.ok ([], [], [], [], []) :=
  ⟨by rfl, by rfl⟩

/-- C6 amended: neither operation validates its parameters.  The builder
voxelizes every point for any bin sizes (also non-positive ones, by floor
division, without error), and the sweep over an empty half-open range
(`bin_max <= bin_min` with positive step) completes successfully with
zero samples rather than failing. -/
theorem no_validation_behavior :
    (∀ (ps : List Point) (bxy bz : ℚ), (voxelize ps bxy bz).length = ps.length) ∧
    (∀ (ps : List Point) (bmin bmax step : Int), 0 < step → bmax ≤ bmin →
      voxel_scan ps bmin bmax step = Except.ok ([], [], [], [], [])) := by
  constructor
  · intro ps bxy bz
    simp [voxelize]
  · intro ps bmin bmax step hstep hle
    rw [voxel_scan, if_neg (by omega : ¬(step = 0)), pyRange_nil hstep hle]
    rfl

/-- Witness for the amended C6, at a negative bin size and an inverted
sweep range. -/
theorem no_validation_behavior_witness :
    (voxelize [({ x_nm := 7, y_nm := 3, z := 2, hdbscan := 0 } : Point)] (-5) (-5)).length =
      [({ x_nm := 7, y_nm := 3, z := 2, hdbscan := 0 } : Point)].length ∧
    (0 < (5 : Int)) ∧ ((10 : Int) ≤ 20) ∧
    voxel_scan [({ x_nm := 0, y_nm := 0, z := 0, hdbscan := 0 } : Point)] 20 10 5 =
      Except.ok ([], [], [], [], []) :=
  ⟨no_validation_behavior.1 _ _ _, by decide, by decide,
   no_validation_behavior.2 [({ x_nm := 0, y_nm := 0, z := 0, hdbscan := 0 } : Point)]
     20 10 5 (by decide) (by decide)⟩

/-- C7 counterexample: an empty point set does not yield a zero-volume
result with "not computable" ratio markers; the sweep aborts at the first
bin with the uncaught KeyError that the face scanner raises on the empty
grid (the x pass returns a column-less empty DataFrame that the y pass's
`groupby(['x_vox', 'z_vox'])` cannot handle), before the ratio divisions
are ever reached. -/
theorem empty_input_raises_counterexample :
    voxel_scan ([] : List Point) 10 20 5 = Except.error "KeyError: x_vox" := by
  rfl

/-- C7 amended: an empty point set is not treated as a zero-volume grid and
the ratios are never reported as "not computable"; instead the face scanner
itself raises an uncaught KeyError at the first bin of any nonempty sweep
range (the x pass on the empty grid returns a column-less frame that breaks
the y pass's `groupby`), aborting the sweep before the ratio computations;
those computations never see volume 0, since every nonempty point set
yields at least one voxel. -/
theorem empty_grid_scanner_raises (bin_min bin_max step : Int)
    (hstep : 0 < step) (hlt : bin_min < bin_max) :
    voxel_scan ([] : List Point) bin_min bin_max step =
      Except.error "KeyError: x_vox" ∧
    (∀ (locs : List Point) (bin : Int), locs ≠ [] →
      (sample locs bin).total_vox ≠ 0) := by
  constructor
  · have hchk : count_exposed_faces_checked
        (voxelize ([] : List Point) (bin_min : ℚ) (bin_min : ℚ)) =
        Except.error "KeyError: x_vox" := by
      rfl
    rw [voxel_scan, if_neg (by omega : ¬(step = 0)), pyRange_cons hstep hlt, scanGo,
      hchk]
  · intro locs bin hlocs
    rw [sample]
    exact total_vox_ne_zero hlocs _ _

/-- Witness for the amended C7 at the range 5 to 30 step 7. -/
theorem empty_grid_scanner_raises_witness :
    (0 < (7 : Int)) ∧ ((5 : Int) < 30) ∧
    (voxel_scan ([] : List Point) 5 30 7 = Except.error "KeyError: x_vox" ∧
    (∀ (locs : List Point) (bin : Int), locs ≠ [] →
      (sample locs bin).total_vox ≠ 0)) :=
  ⟨by decide, by decide, empty_grid_scanner_raises 5 30 7 (by decide) (by decide)⟩

/-- C5 (code bug): when the sigmoid fit of a processed cluster fails
(the solver oracle returns no parameters, Python's RuntimeError path), the
except branch appends nothing to `params`, so the result DataFrame has
mismatched column lengths and its construction raises ValueError, aborting
the batch with no output row, instead of recording a per-cluster
"no fit" marker. -/
theorem fit_failure_aborts_batch :
    analyze_vox_model
      [(1, [({ x_nm := 0, y_nm := 0, z := 0, hdbscan := 0 } : Point)])]
      10 20 5 1 (fun _ _ => none) =
      Except.error "ValueError: All arrays must be of the same length" := by
  rfl

end DecodePaint

namespace DecodePaint

/-! ### Translation and idempotence lemmas (C9) -/

theorem minList_map_shift (l : List Voxel) (f : Voxel → Int) (c : Int) (h : l ≠ []) :
    minList (l.map (fun v => f v + c)) = minList (l.map f) + c := by
  have h1 : l.map (fun v => f v + c) = (l.map f).map (fun x => x + c) := by
    rw [List.map_map]
    rfl
  rw [h1, minList_map_add (by simpa using h) c]

theorem voxelize_translate (ps : List Point) (bxy bz : ℚ) (hx : 0 < bxy) (hz : 0 < bz)
    (i j k : Int) :
    voxelize (translate ps ((i : ℚ) * bxy) ((j : ℚ) * bxy) ((k : ℚ) * bz)) bxy bz =
      (voxelize ps bxy bz).map
        (fun v => { x_vox := v.x_vox + i, y_vox := v.y_vox + j, z_vox := v.z_vox + k }) := by
  rw [translate, voxelize, voxelize, List.map_map, List.map_map]
  refine List.map_congr_left ?_
  intro p _
  have hgen : ∀ (c : ℚ) (m : Int), 0 < c → ∀ x : ℚ,
      floor_div (x + (m : ℚ) * c) c = floor_div x c + m := by
    intro c m hc x
    rw [floor_div_eq hc, floor_div_eq hc]
    have hdiv : (x + (m : ℚ) * c) / c = x / c + (m : ℚ) := by
      field_simp
    rw [hdiv, Int.floor_add_int]
  simp only [Function.comp_apply]
  rw [Voxel.mk.injEq]
  refine ⟨?_, ?_, ?_⟩
  · exact hgen bxy i hx p.x_nm
  · exact hgen bxy j hx p.y_nm
  · exact hgen bz k hz p.z

theorem auto_origin_shift (df : List Voxel) (i j k : Int) :
    auto_origin_df (df.map
      (fun v => { x_vox := v.x_vox + i, y_vox := v.y_vox + j, z_vox := v.z_vox + k })) =
      auto_origin_df df := by
  cases df with
  | nil => rfl
  | cons w rest =>
    have hne : (w :: rest : List Voxel) ≠ [] := by simp
    rw [auto_origin_df, auto_origin_df]
    have h1 : ((w :: rest).map (fun v =>
        ({ x_vox := v.x_vox + i, y_vox := v.y_vox + j, z_vox := v.z_vox + k } : Voxel))).map
          (·.x_vox) = (w :: rest).map (fun v => v.x_vox + i) := by
      rw [List.map_map]
      rfl
    have h2 : ((w :: rest).map (fun v =>
        ({ x_vox := v.x_vox + i, y_vox := v.y_vox + j, z_vox := v.z_vox + k } : Voxel))).map
          (·.y_vox) = (w :: rest).map (fun v => v.y_vox + j) := by
      rw [List.map_map]
      rfl
    have h3 : ((w :: rest).map (fun v =>
        ({ x_vox := v.x_vox + i, y_vox := v.y_vox + j, z_vox := v.z_vox + k } : Voxel))).map
          (·.z_vox) = (w :: rest).map (fun v => v.z_vox + k) := by
      rw [List.map_map]
      rfl
    rw [h1, h2, h3, minList_map_shift _ _ _ hne, minList_map_shift _ _ _ hne,
      minList_map_shift _ _ _ hne, List.map_map]
    refine List.map_congr_left ?_
    intro v _
    simp only [Function.comp_apply,
      show (fun x : Voxel => x.x_vox) = Voxel.x_vox from rfl,
      show (fun x : Voxel => x.y_vox) = Voxel.y_vox from rfl,
      show (fun x : Voxel => x.z_vox) = Voxel.z_vox from rfl]
    rw [Voxel.mk.injEq]
    refine ⟨by omega, by omega, by omega⟩

theorem count_faces_translate (ps : List Point) (bxy bz : ℚ) (hx : 0 < bxy) (hz : 0 < bz)
    (i j k : Int) :
    count_exposed_faces
        (voxelize (translate ps ((i : ℚ) * bxy) ((j : ℚ) * bxy) ((k : ℚ) * bz)) bxy bz) =
      count_exposed_faces (voxelize ps bxy bz) := by
  have hinj : Function.Injective
      (fun v : Voxel =>
        ({ x_vox := v.x_vox + i, y_vox := v.y_vox + j, z_vox := v.z_vox + k } : Voxel)) := by
    intro v w hvw
    rw [Voxel.mk.injEq] at hvw
    cases v
    cases w
    rw [Voxel.mk.injEq]
    simp only at hvw
    omega
  have hg : auto_origin_df (dedupF
      (voxelize (translate ps ((i : ℚ) * bxy) ((j : ℚ) * bxy) ((k : ℚ) * bz)) bxy bz)) =
      auto_origin_df (dedupF (voxelize ps bxy bz)) := by
    rw [voxelize_translate ps bxy bz hx hz i j k, dedupF_map hinj, auto_origin_shift]
  rw [count_exposed_faces, count_exposed_faces, hg]

theorem auto_origin_min_one (df : List Voxel) (h : df ≠ []) :
    minList ((auto_origin_df df).map (·.x_vox)) = 1 ∧
    minList ((auto_origin_df df).map (·.y_vox)) = 1 ∧
    minList ((auto_origin_df df).map (·.z_vox)) = 1 := by
  have hx : (auto_origin_df df).map (·.x_vox) =
      df.map (fun v => v.x_vox + (1 - minList (df.map (·.x_vox)))) := by
    rw [auto_origin_df, List.map_map]
    refine List.map_congr_left ?_
    intro v _
    simp only [Function.comp_apply]
    omega
  have hy : (auto_origin_df df).map (·.y_vox) =
      df.map (fun v => v.y_vox + (1 - minList (df.map (·.y_vox)))) := by
    rw [auto_origin_df, List.map_map]
    refine List.map_congr_left ?_
    intro v _
    simp only [Function.comp_apply]
    omega
  have hz : (auto_origin_df df).map (·.z_vox) =
      df.map (fun v => v.z_vox + (1 - minList (df.map (·.z_vox)))) := by
    rw [auto_origin_df, List.map_map]
    refine List.map_congr_left ?_
    intro v _
    simp only [Function.comp_apply]
    omega
  rw [hx, hy, hz, minList_map_shift _ _ _ h, minList_map_shift _ _ _ h,
    minList_map_shift _ _ _ h]
  simp only [show (fun x : Voxel => x.x_vox) = Voxel.x_vox from rfl,
    show (fun x : Voxel => x.y_vox) = Voxel.y_vox from rfl,
    show (fun x : Voxel => x.z_vox) = Voxel.z_vox from rfl]
  refine ⟨by omega, by omega, by omega⟩

theorem auto_origin_idem (g : List Voxel) :
    auto_origin_df (auto_origin_df g) = auto_origin_df g := by
  cases hg : g with
  | nil => rfl
  | cons w rest =>
    have hne : (w :: rest : List Voxel) ≠ [] := by simp
    obtain ⟨m1, m2, m3⟩ := auto_origin_min_one (w :: rest) hne
    conv_lhs => rw [auto_origin_df]
    rw [m1, m2, m3]
    have hid : ∀ v : Voxel,
        ({ x_vox := v.x_vox - 1 + 1, y_vox := v.y_vox - 1 + 1, z_vox := v.z_vox - 1 + 1 } : Voxel) =
          v := by
      intro v
      cases v
      dsimp only
      rw [Voxel.mk.injEq]
      refine ⟨by omega, by omega, by omega⟩
    rw [List.map_congr_left (fun v _ => hid v)]
    exact List.map_id _

theorem rescan_identity (vs : List Voxel) :
    count_exposed_faces (auto_origin_df (dedupF vs)) = count_exposed_faces vs := by
  have h1 : dedupF (auto_origin_df (dedupF vs)) = auto_origin_df (dedupF vs) :=
    dedupF_eq_self (auto_origin_nodup (dedupF_nodup vs))
  conv_lhs => rw [count_exposed_faces, h1, auto_origin_idem]
  rw [count_exposed_faces]

end DecodePaint

namespace DecodePaint

theorem s_to_v_val_cube (s v : Int) (hv : 0 < v) :
    (s_to_v_val (s, v)) ^ (3 : ℕ) = ((s : ℝ)) ^ (3 : ℕ) / ((v : ℝ)) ^ (2 : ℕ) := by
  have hv0 : (0 : ℝ) < (v : ℝ) := by exact_mod_cast hv
  rw [s_to_v_val]
  dsimp only
  rw [div_pow]
  congr 1
  rw [← Real.rpow_natCast ((v : ℝ) ^ ((2 : ℝ) / 3)) 3, ← Real.rpow_mul hv0.le]
  norm_num

/-- C9 counterexample: translating all input points by the uniform offset
(7, 0, 0) nm changes `s_to_v` at bin size 15: the original pair of points
lands in one voxel (s_to_v = 6) but the translated pair lands in two
(s_to_v = 10 / 2 ^ (2/3)). -/
theorem stov_translation_counterexample :
    translate
        [({ x_nm := 0, y_nm := 0, z := 0, hdbscan := 0 } : Point),
         { x_nm := 10, y_nm := 0, z := 0, hdbscan := 0 }] 7 0 0 =
      [({ x_nm := 7, y_nm := 0, z := 0, hdbscan := 0 } : Point),
       { x_nm := 17, y_nm := 0, z := 0, hdbscan := 0 }] ∧
    sample_stov
        [({ x_nm := 7, y_nm := 0, z := 0, hdbscan := 0 } : Point),
         { x_nm := 17, y_nm := 0, z := 0, hdbscan := 0 }] 15 ≠
      sample_stov
        [({ x_nm := 0, y_nm := 0, z := 0, hdbscan := 0 } : Point),
         { x_nm := 10, y_nm := 0, z := 0, hdbscan := 0 }] 15 := by
  constructor
  · rw [translate]
    norm_num [Point.mk.injEq]
  · have e1 : samplePair
        [({ x_nm := 7, y_nm := 0, z := 0, hdbscan := 0 } : Point),
         { x_nm := 17, y_nm := 0, z := 0, hdbscan := 0 }] 15 = (2250, 6750) := by
      decide
    have e2 : samplePair
        [({ x_nm := 0, y_nm := 0, z := 0, hdbscan := 0 } : Point),
         { x_nm := 10, y_nm := 0, z := 0, hdbscan := 0 }] 15 = (1350, 3375) := by
      decide
    intro hc
    rw [sample_stov, sample_stov, e1, e2] at hc
    have h3 : (s_to_v_val (2250, 6750)) ^ (3 : ℕ) = (s_to_v_val (1350, 3375)) ^ (3 : ℕ) := by
      rw [hc]
    rw [s_to_v_val_cube 2250 6750 (by norm_num),
      s_to_v_val_cube 1350 3375 (by norm_num)] at h3
    norm_num at h3

/-- C9 amended: `s_to_v` is invariant under uniform translation of all input
points by integer multiples of the bin size (the induced uniform voxel-index
shift is cancelled by the internal origin normalization), though not under
arbitrary uniform translation; origin normalization is idempotent, and
re-running the scanner pipeline on the already-normalized deduplicated grid
yields output identical to the first run. -/
theorem translation_rescan_spec (ps : List Point) (bin : Int) (i j k : Int)
    (hbin : 0 < bin) :
    sample_stov (translate ps ((i : ℚ) * ((bin : Int) : ℚ)) ((j : ℚ) * ((bin : Int) : ℚ))
        ((k : ℚ) * ((bin : Int) : ℚ))) bin = sample_stov ps bin ∧
    (∀ vs : List Voxel,
      count_exposed_faces (auto_origin_df (dedupF vs)) = count_exposed_faces vs) ∧
    (∀ g : List Voxel, auto_origin_df (auto_origin_df g) = auto_origin_df g) := by
  have hq : (0 : ℚ) < ((bin : Int) : ℚ) := by exact_mod_cast hbin
  have hs : sample (translate ps ((i : ℚ) * ((bin : Int) : ℚ)) ((j : ℚ) * ((bin : Int) : ℚ))
      ((k : ℚ) * ((bin : Int) : ℚ))) bin = sample ps bin := by
    rw [sample, sample]
    exact count_faces_translate ps ((bin : Int) : ℚ) ((bin : Int) : ℚ) hq hq i j k
  refine ⟨?_, rescan_identity, auto_origin_idem⟩
  rw [sample_stov, sample_stov, samplePair, samplePair, sampleSurf, sampleSurf,
    sampleVol, sampleVol, hs]

/-- Witness for the amended C9: translation by one bin width (i = 1) at
bin size 15. -/
theorem translation_rescan_spec_witness :
    (0 < (15 : Int)) ∧
    (sample_stov (translate
        [({ x_nm := 0, y_nm := 0, z := 0, hdbscan := 0 } : Point),
         { x_nm := 10, y_nm := 0, z := 0, hdbscan := 0 }]
        (((1 : Int) : ℚ) * (((15 : Int) : Int) : ℚ)) (((0 : Int) : ℚ) * (((15 : Int) : Int) : ℚ))
        (((0 : Int) : ℚ) * (((15 : Int) : Int) : ℚ))) 15 =
      sample_stov
        [({ x_nm := 0, y_nm := 0, z := 0, hdbscan := 0 } : Point),
         { x_nm := 10, y_nm := 0, z := 0, hdbscan := 0 }] 15 ∧
    (∀ vs : List Voxel,
      count_exposed_faces (auto_origin_df (dedupF vs)) = count_exposed_faces vs) ∧
    (∀ g : List Voxel, auto_origin_df (auto_origin_df g) = auto_origin_df g)) :=
  ⟨by decide,
   translation_rescan_spec
     [({ x_nm := 0, y_nm := 0, z := 0, hdbscan := 0 } : Point),
      { x_nm := 10, y_nm := 0, z := 0, hdbscan := 0 }] 15 1 0 0 (by decide)⟩

end DecodePaint
